import Mathlib

/-!
Verification of the aggregation core of the ydb-query-metrics repository.

The embedding models the Python modules
src/ydb_query_metrics/query_statistics.py, file_format.py and
query_filter.py.  Python 64-bit floats are modelled as rationals,
pandas NaN/None as an explicit cell constructor, and a missing column of
a row as another constructor.  Operations that raise an uncaught Python
exception (KeyError on a missing column, TypeError on arithmetic with a
string cell) are modelled as returning none.
-/

namespace Ydb

/-- One cell of a loaded table row.  num q is a numeric value (a Python
int or float); na is NaN or None; txt s is a string value that the
Python float() builtin does not parse (the model represents only
non-numeric strings as txt); absent means the column does not exist in
the row, so that accessing it raises KeyError. -/
inductive Cell where
  | absent
  | na
  | num (q : ℚ)
  | txt (s : String)
deriving DecidableEq, Repr

/-- A pandas row (pd.Series) as the mapping from column name to cell. -/
abbrev Row := String → Cell

/-- The numeric value a cell holds after pandas coercion; 0 for anything
that is not a number. -/
def effVal : Cell → ℚ
  | Cell.num q => q
  | _ => 0

/-- True when the cell is a numeric value. -/
def Cell.isNum : Cell → Bool
  | Cell.num _ => true
  | _ => false

/-- True when the cell is a string value. -/
def Cell.isStr : Cell → Bool
  | Cell.txt _ => true
  | _ => false

/-- Models pd.to_numeric(col, errors="coerce").fillna(0) applied to one
cell; an absent column is skipped by the "col in df.columns" guard of
calculate_statistics, hence stays absent. -/
def convertCell : Cell → Cell
  | Cell.absent => Cell.absent
  | Cell.na => Cell.num 0
  | Cell.num q => Cell.num q
  | Cell.txt _ => Cell.num 0

/-- numeric_columns of calculate_statistics (query_statistics.py,
lines 202-210). -/
def numeric_columns : List String :=
  ["MinDuration", "MaxDuration", "SumDuration",
   "MinCPUTime", "MaxCPUTime", "SumCPUTime",
   "MinReadRows", "MaxReadRows", "SumReadRows",
   "MinReadBytes", "MaxReadBytes", "SumReadBytes",
   "MinUpdateRows", "MaxUpdateRows", "SumUpdateRows",
   "MinUpdateBytes", "MaxUpdateBytes", "SumUpdateBytes",
   "Count"]

/-- MetricStats of query_statistics.py.  min starts at float("inf"),
modelled as none; count is the unused attribute of the Python class and
total_count models the private attribute updated by update. -/
structure MetricStats where
  min : Option ℚ
  max : ℚ
  sum : ℚ
  count : ℚ
  scale : ℚ
  min_column : String
  max_column : String
  sum_column : String
  metric_name : String
  total_count : ℚ
deriving DecidableEq, Repr

/-- MetricStats.__init__ (query_statistics.py, lines 27-44). -/
def MetricStats.init (min_column max_column sum_column : String)
    (scale : ℚ) (metric_name : String) : MetricStats :=
  { min := none, max := 0, sum := 0, count := 0, scale := scale,
    min_column := min_column, max_column := max_column,
    sum_column := sum_column, metric_name := metric_name,
    total_count := 0 }

/-- MetricStats.create_for_metric (lines 46-70): derives the three
column names and the display name from the metric name. -/
def MetricStats.create_for_metric (metric_name : String) (scale : ℚ) :
    MetricStats :=
  let display_name :=
    if metric_name = "Duration" ∨ metric_name = "CPUTime" then
      metric_name ++ " (s)"
    else metric_name
  MetricStats.init ("Min" ++ metric_name) ("Max" ++ metric_name)
    ("Sum" ++ metric_name) scale display_name

/-- MetricStats.avg (lines 72-82). -/
def MetricStats.avg (s : MetricStats) : ℚ :=
  if s.total_count > 0 then s.sum / (s.total_count * s.scale) else 0

/-- The count computation shared by MetricStats.update and
QueryStatistics.update_from_row: float(row["Count"]) when the value is
not NaN, with ValueError and TypeError caught and turned into 1.0.  A
missing Count column raises an uncaught KeyError, modelled as none. -/
def parseCountCell : Cell → Option ℚ
  | Cell.absent => none
  | Cell.na => some 1
  | Cell.num q => some q
  | Cell.txt _ => some 1

/-- min(self.min, v) where self.min may still be the initial
float("inf"). -/
def updOptMin (cur : Option ℚ) (v : ℚ) : Option ℚ :=
  match cur with
  | none => some v
  | some m => some (min m v)

/-- The min branch of MetricStats.update (lines 100-102): a string cell
makes the division raise TypeError (none); an absent or NaN cell leaves
min unchanged. -/
def minUpd (s : MetricStats) : Cell → Option (Option ℚ)
  | Cell.num v => some (updOptMin s.min (v / s.scale))
  | Cell.txt _ => none
  | _ => some s.min

/-- The max branch of MetricStats.update (lines 104-106). -/
def maxUpd (s : MetricStats) : Cell → Option ℚ
  | Cell.num v => some (max s.max (v / s.scale))
  | Cell.txt _ => none
  | _ => some s.max

/-- The sum branch of MetricStats.update (lines 108-110); sum stays in
the raw unit. -/
def sumUpd (s : MetricStats) : Cell → Option ℚ
  | Cell.num v => some (s.sum + v)
  | Cell.txt _ => none
  | _ => some s.sum

/-- MetricStats.update (lines 84-110). -/
def MetricStats.update (s : MetricStats) (row : Row) : Option MetricStats :=
  match parseCountCell (row "Count") with
  | none => none
  | some c =>
    match minUpd s (row s.min_column), maxUpd s (row s.max_column),
          sumUpd s (row s.sum_column) with
    | some mn, some mx, some sm =>
        some { s with total_count := s.total_count + c,
                      min := mn, max := mx, sum := sm }
    | _, _, _ => none

/-- Total restatement of MetricStats.update on rows that do not raise:
the count weight defaults to 1 for NaN and unparseable cells, and the
three statistics ignore absent and NaN cells. -/
def countD : Cell → ℚ
  | Cell.num q => q
  | _ => 1

/-- The crash-free behaviour of MetricStats.update as a total function;
MetricStats.update agrees with it whenever no exception is raised. -/
def MetricStats.updateT (s : MetricStats) (row : Row) : MetricStats :=
  { s with
    total_count := s.total_count + countD (row "Count"),
    min := match row s.min_column with
      | Cell.num v => updOptMin s.min (v / s.scale)
      | _ => s.min,
    max := match row s.max_column with
      | Cell.num v => Max.max s.max (v / s.scale)
      | _ => s.max,
    sum := match row s.sum_column with
      | Cell.num v => s.sum + v
      | _ => s.sum }

/-- QueryStatistics of query_statistics.py (lines 113-139). -/
structure QueryStatistics where
  query_text : String
  row_count : Nat
  total_count : ℚ
  duration : MetricStats
  cpu_time : MetricStats
  read_rows : MetricStats
  read_bytes : MetricStats
  update_rows : MetricStats
  update_bytes : MetricStats
deriving DecidableEq, Repr

/-- QueryStatistics.__init__ (lines 128-139): the six accumulators with
their scales (1000000 for the two time metrics, 1 otherwise). -/
def QueryStatistics.init (query_text : String) : QueryStatistics :=
  { query_text := query_text, row_count := 0, total_count := 0,
    duration := MetricStats.create_for_metric "Duration" 1000000,
    cpu_time := MetricStats.create_for_metric "CPUTime" 1000000,
    read_rows := MetricStats.create_for_metric "ReadRows" 1,
    read_bytes := MetricStats.create_for_metric "ReadBytes" 1,
    update_rows := MetricStats.create_for_metric "UpdateRows" 1,
    update_bytes := MetricStats.create_for_metric "UpdateBytes" 1 }

/-- QueryStatistics.update_from_row (lines 165-188). -/
def QueryStatistics.update_from_row (qs : QueryStatistics) (row : Row) :
    Option QueryStatistics :=
  match parseCountCell (row "Count") with
  | none => none
  | some c =>
    match qs.duration.update row, qs.cpu_time.update row,
          qs.read_rows.update row, qs.read_bytes.update row,
          qs.update_rows.update row, qs.update_bytes.update row with
    | some d, some ct, some rr, some rb, some ur, some ub =>
        some { qs with
               row_count := qs.row_count + 1,
               total_count := qs.total_count + c,
               duration := d, cpu_time := ct, read_rows := rr,
               read_bytes := rb, update_rows := ur, update_bytes := ub }
    | _, _, _, _, _, _ => none

/-- The crash-free behaviour of update_from_row as a total function. -/
def QueryStatistics.update_from_rowT (qs : QueryStatistics) (row : Row) :
    QueryStatistics :=
  { qs with
    row_count := qs.row_count + 1,
    total_count := qs.total_count + countD (row "Count"),
    duration := qs.duration.updateT row,
    cpu_time := qs.cpu_time.updateT row,
    read_rows := qs.read_rows.updateT row,
    read_bytes := qs.read_bytes.updateT row,
    update_rows := qs.update_rows.updateT row,
    update_bytes := qs.update_bytes.updateT row }

/-- The str.strip() of Python, modelled on the whitespace characters of
Char.isWhitespace. -/
def pyStrip (s : String) : String :=
  String.mk (((s.data.dropWhile Char.isWhitespace).reverse.dropWhile
    Char.isWhitespace).reverse)

/-- The QueryText handling of calculate_statistics (lines 219-224):
KeyError when the column is absent (outer none); skip the row when the
value is NaN or blank after strip (some none); otherwise the key is the
un-stripped str() of the value. -/
def queryKey : Cell → Option (Option String)
  | Cell.absent => none
  | Cell.na => some none
  | Cell.txt s => if pyStrip s = "" then some none else some (some s)
  | Cell.num q => some (some (toString q))

/-- Lookup in the insertion-ordered dictionary of unique queries. -/
def lookupA (acc : List (String × QueryStatistics)) (k : String) :
    Option QueryStatistics :=
  match acc with
  | [] => none
  | p :: t => if p.1 = k then some p.2 else lookupA t k

/-- Replacing update of the insertion-ordered dictionary: the position
of an existing key is kept, a new key goes to the end. -/
def insertA (acc : List (String × QueryStatistics)) (k : String)
    (v : QueryStatistics) : List (String × QueryStatistics) :=
  match acc with
  | [] => [(k, v)]
  | p :: t => if p.1 = k then (k, v) :: t else p :: insertA t k v

/-- The numeric-conversion preamble of calculate_statistics (lines
201-214) applied to one row. -/
def preprocessRow (r : Row) : Row :=
  fun c => if c ∈ numeric_columns then convertCell (r c) else r c

/-- One iteration of the loop of calculate_statistics (lines 219-230). -/
def calcStep (acc : List (String × QueryStatistics)) (r : Row) :
    Option (List (String × QueryStatistics)) :=
  let r := preprocessRow r
  match queryKey (r "QueryText") with
  | none => none
  | some none => some acc
  | some (some k) =>
    match ((lookupA acc k).getD (QueryStatistics.init k)).update_from_row r with
    | none => none
    | some qs => some (insertA acc k qs)

/-- calculate_statistics (query_statistics.py, lines 191-232), over the
rows of the DataFrame in order.  The result dictionary is modelled as
an insertion-ordered association list. -/
def calculate_statistics (rows : List Row) :
    Option (List (String × QueryStatistics)) :=
  rows.foldlM calcStep []

/-- One iteration of the crash-free restatement of the loop. -/
def calcStepT (acc : List (String × QueryStatistics)) (r : Row) :
    List (String × QueryStatistics) :=
  let r := preprocessRow r
  match queryKey (r "QueryText") with
  | some (some k) =>
      insertA acc k
        (((lookupA acc k).getD (QueryStatistics.init k)).update_from_rowT r)
  | _ => acc

/-- The crash-free behaviour of calculate_statistics as a total
function; calculate_statistics agrees with it whenever no row raises. -/
def calcT (rows : List Row) : List (String × QueryStatistics) :=
  rows.foldl calcStepT []

/-!  file_format.py  -/

/-- The shape of a pandas DataFrame as seen by detect_file_format:
its column labels (some list when the DataFrame has string column
labels, none for the positional integer labels produced by reading with
header=None), the str()-converted and stripped non-null values of its
first row, and its column count.  Tables with at least one row are
modelled; detect_file_format indexes the first row unconditionally. -/
structure PTable where
  headers : Option (List String)
  firstRow : List String
  ncols : Nat

/-- The two supported schemas. -/
inductive FileFormat where
  | query_metrics
  | top_queries
deriving DecidableEq, Repr

/-- isinstance(df.columns[0], str) together with len(df.columns) > 0. -/
def PTable.headIsStr (t : PTable) : Bool :=
  match t.headers with
  | some (_ :: _) => true
  | _ => false

/-- Membership of a name among the string column labels. -/
def PTable.hasHeader (t : PTable) (n : String) : Bool :=
  match t.headers with
  | some l => l.contains n
  | none => false

/-- detect_file_format (file_format.py, lines 34-71).  The ValueError
raised when nothing matches is modelled as the error case. -/
def detect_file_format (t : PTable) : Except String FileFormat :=
  let step2 : Except String FileFormat :=
    if t.firstRow.contains "MinDuration" && t.firstRow.contains "MaxDuration" then
      Except.ok FileFormat.query_metrics
    else if t.firstRow.contains "CPUTime" && t.firstRow.contains "Duration" then
      Except.ok FileFormat.top_queries
    else if t.ncols = 29 then Except.ok FileFormat.top_queries
    else if t.ncols = 28 then Except.ok FileFormat.query_metrics
    else Except.error "Unable to detect file format"
  if t.headIsStr then
    if t.hasHeader "MinDuration" && t.hasHeader "MaxDuration" then
      Except.ok FileFormat.query_metrics
    else if t.hasHeader "CPUTime" && t.hasHeader "Duration" then
      Except.ok FileFormat.top_queries
    else step2
  else step2

/-- The numeric_columns list of transform_top_queries_to_query_metrics
(file_format.py, lines 92-93). -/
def top_numeric_columns : List String :=
  ["CPUTime", "Duration", "ReadRows", "ReadBytes",
   "UpdateRows", "UpdateBytes", "DeleteRows", "RequestUnits", "Rank"]

/-- The six per-event source columns that become Min/Max/Sum triples. -/
def six_metric_sources : List String :=
  ["CPUTime", "Duration", "ReadRows", "ReadBytes", "UpdateRows", "UpdateBytes"]

/-- Value written into a Min/Max/Sum target column: the numeric
conversion of the source cell when the source column exists, the
constant 0.0 otherwise (file_format.py, lines 106-164). -/
def tvalue (r : Row) (src : String) : Cell :=
  if r src = Cell.absent then Cell.num 0 else convertCell (r src)

/-- astype(int) on an already numeric value truncates toward zero. -/
def truncInt (q : ℚ) : Int :=
  Int.tdiv q.num (q.den : Int)

/-- The Rank column of the transform: numeric conversion then
astype(int), or the constant 0 when absent (lines 172-175). -/
def rankCell (c : Cell) : Cell :=
  Cell.num ((truncInt (effVal (convertCell c)) : Int) : ℚ)

/-- transform_top_queries_to_query_metrics applied to one data row:
the output row holds exactly the canonical columns (lines 99-178). -/
def transform_row (r : Row) : Row :=
  fun c =>
    if c = "IntervalEnd" then
      (if r "IntervalEnd" = Cell.absent then Cell.na else r "IntervalEnd")
    else if c = "MinCPUTime" ∨ c = "MaxCPUTime" ∨ c = "SumCPUTime" then
      tvalue r "CPUTime"
    else if c = "MinDuration" ∨ c = "MaxDuration" ∨ c = "SumDuration" then
      tvalue r "Duration"
    else if c = "MinReadRows" ∨ c = "MaxReadRows" ∨ c = "SumReadRows" then
      tvalue r "ReadRows"
    else if c = "MinReadBytes" ∨ c = "MaxReadBytes" ∨ c = "SumReadBytes" then
      tvalue r "ReadBytes"
    else if c = "MinUpdateRows" ∨ c = "MaxUpdateRows" ∨ c = "SumUpdateRows" then
      tvalue r "UpdateRows"
    else if c = "MinUpdateBytes" ∨ c = "MaxUpdateBytes" ∨ c = "SumUpdateBytes" then
      tvalue r "UpdateBytes"
    else if c = "QueryText" then
      (if r "QueryText" = Cell.absent then Cell.txt "" else r "QueryText")
    else if c = "Rank" then
      (if r "Rank" = Cell.absent then Cell.num 0 else rankCell (r "Rank"))
    else if c = "Count" then Cell.num 1
    else Cell.absent

/-- transform_top_queries_to_query_metrics (file_format.py, lines
74-180): strips a re-embedded literal header row first (a first row
whose CPUTime cell is the string CPUTime), then rewrites every row. -/
def transform_top_queries_to_query_metrics (rows : List Row) : List Row :=
  let rows2 :=
    match rows with
    | r :: rest => if r "CPUTime" = Cell.txt "CPUTime" then rest else rows
    | [] => rows
  rows2.map transform_row

/-!  query_filter.py  -/

/-- Prefix test on character lists. -/
def charsPre : List Char → List Char → Bool
  | [], _ => true
  | _ :: _, [] => false
  | a :: as, b :: bs => a == b && charsPre as bs

/-- Substring test on character lists. -/
def charsContain (hay needle : List Char) : Bool :=
  if charsPre needle hay then true
  else
    match hay with
    | [] => false
    | _ :: t => charsContain t needle

/-- Case-insensitive substring containment: models
Series.str.contains(pat, case=False, regex=False) on one value. -/
def str_contains_ci (s pat : String) : Bool :=
  charsContain s.toLower.toList pat.toLower.toList

/-- QueryFilterBuilder (query_filter.py, lines 13-109).  The filters
apply to the QueryText column; a row is modelled by the string value of
that column, and each registered filter is the per-value predicate of
the corresponding boolean mask. -/
structure QueryFilterBuilder where
  filters : List (String → Bool)

/-- with_like_filters (lines 32-49): substring inclusion. -/
def QueryFilterBuilder.with_like_filters (b : QueryFilterBuilder)
    (patterns : List String) : QueryFilterBuilder :=
  { b with filters := b.filters ++ patterns.map (fun p => fun s => str_contains_ci s p) }

/-- with_not_like_filters (lines 51-68): substring exclusion. -/
def QueryFilterBuilder.with_not_like_filters (b : QueryFilterBuilder)
    (patterns : List String) : QueryFilterBuilder :=
  { b with filters := b.filters ++ patterns.map (fun p => fun s => ! str_contains_ci s p) }

/-- with_regex_filters (lines 70-87).  The parameter m models the
pandas case-insensitive regular-expression search
Series.str.contains(p, case=False, regex=True) on one value; the
source registers the NEGATION of that search (the tilde on line 85). -/
def QueryFilterBuilder.with_regex_filters (b : QueryFilterBuilder)
    (m : String → String → Bool) (patterns : List String) : QueryFilterBuilder :=
  { b with filters := b.filters ++ patterns.map (fun p => fun s => ! m s p) }

/-- build (lines 89-109): conjunction of all registered masks; with no
filters the input is returned unchanged. -/
def QueryFilterBuilder.build (b : QueryFilterBuilder) :
    List String → List String :=
  fun rows =>
    if b.filters.isEmpty then rows
    else rows.filter (fun s => b.filters.all (fun f => f s))

/-- filter_queries (query_filter.py, lines 112-134). -/
def filter_queries (m : String → String → Bool) (rows : List String)
    (like_filters not_like_filters regex_filters : List String) :
    List String :=
  ((((QueryFilterBuilder.mk []).with_like_filters like_filters).with_not_like_filters
      not_like_filters).with_regex_filters m regex_filters).build rows

/-!  Derived notions used by the statements below.  -/

/-- The weight a row contributes to total_count once the numeric
conversion of calculate_statistics has run: its Count value when
numeric, otherwise 0. -/
def weightOf (r : Row) : ℚ := effVal (r "Count")

/-- The grouping key calculate_statistics derives from a row, none when
the row is skipped (or would raise). -/
def keyOf (r : Row) : Option String :=
  match queryKey (r "QueryText") with
  | some (some k) => some k
  | _ => none

/-- A row that calculate_statistics keeps rather than skips. -/
def keepRow (r : Row) : Bool :=
  match r "QueryText" with
  | Cell.na => false
  | Cell.txt s => !(pyStrip s == "")
  | _ => true

/-- A row of the canonical schema: every numeric column (the eighteen
Min/Max/Sum fields and Count) holds a numeric value. -/
def canonicalRow (r : Row) : Prop :=
  ∀ c ∈ numeric_columns, (r c).isNum = true

/-- The three column names of an accumulator follow the
create_for_metric naming convention for base name b. -/
def MetricStats.hasCols (s : MetricStats) (b : String) : Prop :=
  s.min_column = "Min" ++ b ∧ s.max_column = "Max" ++ b ∧
  s.sum_column = "Sum" ++ b

/-- The six accumulators of a QueryStatistics carry the column names
QueryStatistics.__init__ gives them. -/
def QueryStatistics.wf (qs : QueryStatistics) : Prop :=
  qs.duration.hasCols "Duration" ∧ qs.cpu_time.hasCols "CPUTime" ∧
  qs.read_rows.hasCols "ReadRows" ∧ qs.read_bytes.hasCols "ReadBytes" ∧
  qs.update_rows.hasCols "UpdateRows" ∧ qs.update_bytes.hasCols "UpdateBytes"

/-!  Bridge lemmas: the Option-valued operations agree with their total
restatements whenever no Python exception is raised.  -/

theorem parseCountCell_eq_countD {x : Cell} (hx : x ≠ Cell.absent) :
    parseCountCell x = some (countD x) := by
  cases x <;> simp_all [parseCountCell, countD]

theorem MetricStats.update_eq_updateT (s : MetricStats) (row : Row)
    (hc : row "Count" ≠ Cell.absent)
    (h1 : (row s.min_column).isStr = false)
    (h2 : (row s.max_column).isStr = false)
    (h3 : (row s.sum_column).isStr = false) :
    s.update row = some (s.updateT row) := by
  rw [MetricStats.update, parseCountCell_eq_countD hc]
  unfold MetricStats.updateT
  cases hm : row s.min_column <;> cases hx : row s.max_column <;>
    cases hs : row s.sum_column <;>
    simp_all [minUpd, maxUpd, sumUpd, Cell.isStr]

theorem QueryStatistics.update_from_row_eq (qs : QueryStatistics) (row : Row)
    (hwf : qs.wf)
    (hc : row "Count" ≠ Cell.absent)
    (hstr : ∀ c ∈ numeric_columns, c ≠ "Count" → (row c).isStr = false) :
    qs.update_from_row row = some (qs.update_from_rowT row) := by
  obtain ⟨h1, h2, h3, h4, h5, h6⟩ := hwf
  rw [QueryStatistics.update_from_row, parseCountCell_eq_countD hc]
  rw [qs.duration.update_eq_updateT row hc
      (by rw [h1.1]; exact hstr _ (by decide) (by decide))
      (by rw [h1.2.1]; exact hstr _ (by decide) (by decide))
      (by rw [h1.2.2]; exact hstr _ (by decide) (by decide))]
  rw [qs.cpu_time.update_eq_updateT row hc
      (by rw [h2.1]; exact hstr _ (by decide) (by decide))
      (by rw [h2.2.1]; exact hstr _ (by decide) (by decide))
      (by rw [h2.2.2]; exact hstr _ (by decide) (by decide))]
  rw [qs.read_rows.update_eq_updateT row hc
      (by rw [h3.1]; exact hstr _ (by decide) (by decide))
      (by rw [h3.2.1]; exact hstr _ (by decide) (by decide))
      (by rw [h3.2.2]; exact hstr _ (by decide) (by decide))]
  rw [qs.read_bytes.update_eq_updateT row hc
      (by rw [h4.1]; exact hstr _ (by decide) (by decide))
      (by rw [h4.2.1]; exact hstr _ (by decide) (by decide))
      (by rw [h4.2.2]; exact hstr _ (by decide) (by decide))]
  rw [qs.update_rows.update_eq_updateT row hc
      (by rw [h5.1]; exact hstr _ (by decide) (by decide))
      (by rw [h5.2.1]; exact hstr _ (by decide) (by decide))
      (by rw [h5.2.2]; exact hstr _ (by decide) (by decide))]
  rw [qs.update_bytes.update_eq_updateT row hc
      (by rw [h6.1]; exact hstr _ (by decide) (by decide))
      (by rw [h6.2.1]; exact hstr _ (by decide) (by decide))
      (by rw [h6.2.2]; exact hstr _ (by decide) (by decide))]
  rfl

/-!  Characterization of folds of the total update over a row list.  -/

/-- The scaled values a column contributes to the min or max statistic. -/
def scaledVals (scale : ℚ) (col : String) (rows : List Row) : List ℚ :=
  rows.filterMap (fun r =>
    match r col with
    | Cell.num v => some (v / scale)
    | _ => none)

/-- The raw values a column contributes to the sum statistic. -/
def sumVals (col : String) (rows : List Row) : List ℚ :=
  rows.filterMap (fun r =>
    match r col with
    | Cell.num v => some v
    | _ => none)

/-- The count weights of a row list as MetricStats.update parses them. -/
def countVals (rows : List Row) : List ℚ :=
  rows.map (fun r => countD (r "Count"))

@[simp] theorem updateT_min_column (s : MetricStats) (row : Row) :
    (s.updateT row).min_column = s.min_column := rfl

@[simp] theorem updateT_max_column (s : MetricStats) (row : Row) :
    (s.updateT row).max_column = s.max_column := rfl

@[simp] theorem updateT_sum_column (s : MetricStats) (row : Row) :
    (s.updateT row).sum_column = s.sum_column := rfl

@[simp] theorem updateT_scale (s : MetricStats) (row : Row) :
    (s.updateT row).scale = s.scale := rfl

theorem foldl_updateT_min (rows : List Row) :
    ∀ s : MetricStats, (rows.foldl MetricStats.updateT s).min =
      (scaledVals s.scale s.min_column rows).foldl updOptMin s.min := by
  induction rows with
  | nil => intro s; rfl
  | cons r t ih =>
    intro s
    rw [List.foldl_cons, ih]
    cases hm : r s.min_column <;>
      simp [scaledVals, MetricStats.updateT, hm, List.filterMap_cons]

theorem foldl_updateT_max (rows : List Row) :
    ∀ s : MetricStats, (rows.foldl MetricStats.updateT s).max =
      (scaledVals s.scale s.max_column rows).foldl Max.max s.max := by
  induction rows with
  | nil => intro s; rfl
  | cons r t ih =>
    intro s
    rw [List.foldl_cons, ih]
    cases hm : r s.max_column <;>
      simp [scaledVals, MetricStats.updateT, hm, List.filterMap_cons]

theorem foldl_updateT_sum (rows : List Row) :
    ∀ s : MetricStats, (rows.foldl MetricStats.updateT s).sum =
      (sumVals s.sum_column rows).foldl (fun a v => a + v) s.sum := by
  induction rows with
  | nil => intro s; rfl
  | cons r t ih =>
    intro s
    rw [List.foldl_cons, ih]
    cases hm : r s.sum_column <;>
      simp [sumVals, MetricStats.updateT, hm, List.filterMap_cons]

theorem foldl_updateT_total_count (rows : List Row) :
    ∀ s : MetricStats, (rows.foldl MetricStats.updateT s).total_count =
      (countVals rows).foldl (fun a v => a + v) s.total_count := by
  induction rows with
  | nil => intro s; rfl
  | cons r t ih =>
    intro s
    rw [List.foldl_cons, ih]
    simp [countVals, MetricStats.updateT]

/-- Folding the running-minimum step from the initial infinity computes
the minimum of the list. -/
theorem foldl_updOptMin_some (l : List ℚ) :
    ∀ m : ℚ, l.foldl updOptMin (some m) = some (l.foldl Min.min m) := by
  induction l with
  | nil => intro m; rfl
  | cons x t ih => intro m; rw [List.foldl_cons, List.foldl_cons]; exact ih _

theorem foldl_updOptMin_none (l : List ℚ) :
    l.foldl updOptMin none = l.min? := by
  cases l with
  | nil => rfl
  | cons x t =>
    rw [List.foldl_cons, List.min?_cons']
    exact foldl_updOptMin_some t x

theorem foldl_max_shift (l : List ℚ) :
    ∀ a b : ℚ, l.foldl Max.max (Max.max a b) = Max.max a (l.foldl Max.max b) := by
  induction l with
  | nil => intro a b; rfl
  | cons x t ih =>
    intro a b
    rw [List.foldl_cons, List.foldl_cons, max_assoc]
    exact ih a (Max.max b x)

theorem foldl_max_zero (l : List ℚ) (hl : l ≠ []) :
    ∃ M, l.max? = some M ∧ l.foldl Max.max 0 = Max.max 0 M := by
  cases l with
  | nil => exact absurd rfl hl
  | cons x t =>
    refine ⟨t.foldl Max.max x, List.max?_cons', ?_⟩
    rw [List.foldl_cons]
    exact foldl_max_shift t 0 x

theorem foldl_add_shift (l : List ℚ) :
    ∀ a : ℚ, l.foldl (fun a v => a + v) a = a + l.sum := by
  induction l with
  | nil => intro a; simp
  | cons x t ih =>
    intro a
    rw [List.foldl_cons, ih, List.sum_cons, add_assoc]

/-!  Projections of folds of the total per-row update.  -/

theorem foldl_rowT_duration (rows : List Row) :
    ∀ qs : QueryStatistics, (rows.foldl QueryStatistics.update_from_rowT qs).duration =
      rows.foldl MetricStats.updateT qs.duration := by
  induction rows with
  | nil => intro qs; rfl
  | cons r t ih => intro qs; rw [List.foldl_cons, List.foldl_cons, ih]; rfl

theorem foldl_rowT_cpu_time (rows : List Row) :
    ∀ qs : QueryStatistics, (rows.foldl QueryStatistics.update_from_rowT qs).cpu_time =
      rows.foldl MetricStats.updateT qs.cpu_time := by
  induction rows with
  | nil => intro qs; rfl
  | cons r t ih => intro qs; rw [List.foldl_cons, List.foldl_cons, ih]; rfl

theorem foldl_rowT_read_rows (rows : List Row) :
    ∀ qs : QueryStatistics, (rows.foldl QueryStatistics.update_from_rowT qs).read_rows =
      rows.foldl MetricStats.updateT qs.read_rows := by
  induction rows with
  | nil => intro qs; rfl
  | cons r t ih => intro qs; rw [List.foldl_cons, List.foldl_cons, ih]; rfl

theorem foldl_rowT_read_bytes (rows : List Row) :
    ∀ qs : QueryStatistics, (rows.foldl QueryStatistics.update_from_rowT qs).read_bytes =
      rows.foldl MetricStats.updateT qs.read_bytes := by
  induction rows with
  | nil => intro qs; rfl
  | cons r t ih => intro qs; rw [List.foldl_cons, List.foldl_cons, ih]; rfl

theorem foldl_rowT_update_rows (rows : List Row) :
    ∀ qs : QueryStatistics, (rows.foldl QueryStatistics.update_from_rowT qs).update_rows =
      rows.foldl MetricStats.updateT qs.update_rows := by
  induction rows with
  | nil => intro qs; rfl
  | cons r t ih => intro qs; rw [List.foldl_cons, List.foldl_cons, ih]; rfl

theorem foldl_rowT_update_bytes (rows : List Row) :
    ∀ qs : QueryStatistics, (rows.foldl QueryStatistics.update_from_rowT qs).update_bytes =
      rows.foldl MetricStats.updateT qs.update_bytes := by
  induction rows with
  | nil => intro qs; rfl
  | cons r t ih => intro qs; rw [List.foldl_cons, List.foldl_cons, ih]; rfl

theorem foldl_rowT_total_count (rows : List Row) :
    ∀ qs : QueryStatistics, (rows.foldl QueryStatistics.update_from_rowT qs).total_count =
      (countVals rows).foldl (fun a v => a + v) qs.total_count := by
  induction rows with
  | nil => intro qs; rfl
  | cons r t ih =>
    intro qs
    rw [List.foldl_cons, ih]
    simp [countVals, QueryStatistics.update_from_rowT]

theorem wf_updateT {qs : QueryStatistics} (row : Row) (h : qs.wf) :
    (qs.update_from_rowT row).wf := by
  obtain ⟨h1, h2, h3, h4, h5, h6⟩ := h
  exact ⟨h1, h2, h3, h4, h5, h6⟩

theorem wf_init (k : String) : (QueryStatistics.init k).wf := by
  refine ⟨⟨?_, ?_, ?_⟩, ⟨?_, ?_, ?_⟩, ⟨?_, ?_, ?_⟩, ⟨?_, ?_, ?_⟩,
    ⟨?_, ?_, ?_⟩, ⟨?_, ?_, ?_⟩⟩ <;> rfl

/-!  Association-list lemmas.  -/

theorem lookupA_insertA_self (acc : List (String × QueryStatistics))
    (k : String) (v : QueryStatistics) :
    lookupA (insertA acc k v) k = some v := by
  induction acc with
  | nil => simp [insertA, lookupA]
  | cons p t ih =>
    by_cases h : p.1 = k
    · simp [insertA, lookupA, h]
    · simp [insertA, lookupA, h, ih]

theorem lookupA_insertA_ne (acc : List (String × QueryStatistics))
    (k k2 : String) (v : QueryStatistics) (h : k ≠ k2) :
    lookupA (insertA acc k v) k2 = lookupA acc k2 := by
  induction acc with
  | nil => simp [insertA, lookupA, h]
  | cons p t ih =>
    by_cases hp : p.1 = k
    · rw [insertA, if_pos hp, lookupA, if_neg h, lookupA,
        if_neg (by rw [hp]; exact h)]
    · rw [insertA, if_neg hp, lookupA, lookupA, ih]

theorem mem_insertA {acc : List (String × QueryStatistics)}
    {k : String} {v : QueryStatistics} {p : String × QueryStatistics}
    (h : p ∈ insertA acc k v) : p ∈ acc ∨ p = (k, v) := by
  induction acc with
  | nil => simp [insertA] at h; exact Or.inr h
  | cons q t ih =>
    by_cases hq : q.1 = k
    · rw [insertA, if_pos hq] at h
      rcases List.mem_cons.1 h with h1 | h1
      · exact Or.inr h1
      · exact Or.inl (List.mem_cons_of_mem _ h1)
    · rw [insertA, if_neg hq] at h
      rcases List.mem_cons.1 h with h1 | h1
      · exact Or.inl (h1 ▸ List.mem_cons_self _ _)
      · rcases ih h1 with h2 | h2
        · exact Or.inl (List.mem_cons_of_mem _ h2)
        · exact Or.inr h2

/-!  Per-key characterization of the total aggregation.  -/

/-- The rows of the input that calculate_statistics folds into the
statistics of key k. -/
def rowsFor (k : String) (rows : List Row) : List Row :=
  rows.filter (fun r => keyOf r == some k)

/-- One total feeding step: numeric preprocessing then the total
per-row update. -/
def feedP (qs : QueryStatistics) (r : Row) : QueryStatistics :=
  qs.update_from_rowT (preprocessRow r)

theorem preprocessRow_queryText (r : Row) :
    preprocessRow r "QueryText" = r "QueryText" := by
  rw [preprocessRow, if_neg (by decide)]

theorem calcStepT_eq (acc : List (String × QueryStatistics)) (r : Row) :
    calcStepT acc r =
      match keyOf r with
      | some k => insertA acc k (feedP ((lookupA acc k).getD (QueryStatistics.init k)) r)
      | none => acc := by
  rw [calcStepT, keyOf, preprocessRow_queryText]
  cases queryKey (r "QueryText") with
  | none => rfl
  | some o => cases o <;> rfl

theorem lookupA_foldl_calcStepT (rows : List Row) :
    ∀ (acc : List (String × QueryStatistics)) (k : String),
      lookupA (rows.foldl calcStepT acc) k =
        match lookupA acc k, rowsFor k rows with
        | some q, l => some (l.foldl feedP q)
        | none, [] => none
        | none, l => some (l.foldl feedP (QueryStatistics.init k)) := by
  induction rows with
  | nil =>
    intro acc k
    simp only [List.foldl_nil, rowsFor, List.filter_nil]
    cases lookupA acc k <;> rfl
  | cons r t ih =>
    intro acc k
    rw [List.foldl_cons, ih, calcStepT_eq]
    cases hkey : keyOf r with
    | none =>
      have hfil : rowsFor k (r :: t) = rowsFor k t := by
        simp [rowsFor, List.filter_cons, hkey]
      rw [hfil]
    | some k2 =>
      by_cases hk : k2 = k
      · subst hk
        have hfil : rowsFor k2 (r :: t) = r :: rowsFor k2 t := by
          simp [rowsFor, List.filter_cons, hkey]
        rw [hfil, lookupA_insertA_self]
        cases hla : lookupA acc k2 <;> simp [hla, List.foldl_cons]
      · have hfil : rowsFor k (r :: t) = rowsFor k t := by
          simp [rowsFor, List.filter_cons, hkey, hk]
        rw [hfil, lookupA_insertA_ne _ _ _ _ hk]

/-!  Bridge from the fallible aggregation to the total one.  -/

theorem queryKey_eq_none {c : Cell} (h : queryKey c = none) : c = Cell.absent := by
  cases c with
  | absent => rfl
  | na => exact absurd h (by simp [queryKey])
  | num q => exact absurd h (by simp [queryKey])
  | txt s =>
    by_cases hb : pyStrip s = "" <;> simp [queryKey, hb] at h

theorem convertCell_ne_absent {x : Cell} (h : x ≠ Cell.absent) :
    convertCell x ≠ Cell.absent := by
  cases x <;> simp_all [convertCell]

theorem convertCell_notStr (x : Cell) : (convertCell x).isStr = false := by
  cases x <;> rfl

theorem preprocessRow_mem {c : String} (r : Row) (h : c ∈ numeric_columns) :
    preprocessRow r c = convertCell (r c) := by
  rw [preprocessRow, if_pos h]

theorem wf_getD (acc : List (String × QueryStatistics)) (k : String)
    (hacc : ∀ p ∈ acc, p.2.wf) :
    ((lookupA acc k).getD (QueryStatistics.init k)).wf := by
  induction acc with
  | nil => exact wf_init k
  | cons p t ih =>
    rw [lookupA]
    by_cases hp : p.1 = k
    · rw [if_pos hp]
      exact hacc p (List.mem_cons_self _ _)
    · rw [if_neg hp]
      exact ih (fun q hq => hacc q (List.mem_cons_of_mem _ hq))

theorem calcStep_eq_calcStepT (acc : List (String × QueryStatistics)) (r : Row)
    (hacc : ∀ p ∈ acc, p.2.wf)
    (hq : r "QueryText" ≠ Cell.absent) (hc : r "Count" ≠ Cell.absent) :
    calcStep acc r = some (calcStepT acc r) := by
  rw [calcStep, calcStepT]
  rw [preprocessRow_queryText]
  cases hkey : queryKey (r "QueryText") with
  | none => exact absurd (queryKey_eq_none hkey) hq
  | some o =>
    cases o with
    | none => rfl
    | some k =>
      have hrw := QueryStatistics.update_from_row_eq
        ((lookupA acc k).getD (QueryStatistics.init k)) (preprocessRow r)
        (wf_getD acc k hacc)
        (by rw [preprocessRow_mem r (by decide : "Count" ∈ numeric_columns)]
            exact convertCell_ne_absent hc)
        (fun c hmem _ => by
          rw [preprocessRow_mem r hmem]; exact convertCell_notStr _)
      simp only [hrw]

theorem calcStepT_wf (acc : List (String × QueryStatistics)) (r : Row)
    (hacc : ∀ p ∈ acc, p.2.wf) :
    ∀ p ∈ calcStepT acc r, p.2.wf := by
  intro p hp
  rw [calcStepT_eq] at hp
  cases hkey : keyOf r with
  | none => rw [hkey] at hp; exact hacc p hp
  | some k =>
    rw [hkey] at hp
    rcases mem_insertA hp with h1 | h1
    · exact hacc p h1
    · rw [h1]
      exact wf_updateT _ (wf_getD acc k hacc)

theorem foldlM_calcStep_eq (rows : List Row) :
    ∀ acc : List (String × QueryStatistics), (∀ p ∈ acc, p.2.wf) →
      (∀ r ∈ rows, r "QueryText" ≠ Cell.absent ∧ r "Count" ≠ Cell.absent) →
      rows.foldlM calcStep acc = some (rows.foldl calcStepT acc) := by
  induction rows with
  | nil => intro acc _ _; rfl
  | cons r t ih =>
    intro acc hacc hrows
    rw [List.foldlM_cons, List.foldl_cons,
      calcStep_eq_calcStepT acc r hacc (hrows r (List.mem_cons_self _ _)).1
        (hrows r (List.mem_cons_self _ _)).2]
    exact ih (calcStepT acc r) (calcStepT_wf acc r hacc)
      (fun q hq => hrows q (List.mem_cons_of_mem _ hq))

/-- calculate_statistics computes the total aggregation whenever every
row has a QueryText and a Count column. -/
theorem calc_eq_calcT (rows : List Row)
    (h : ∀ r ∈ rows, r "QueryText" ≠ Cell.absent ∧ r "Count" ≠ Cell.absent) :
    calculate_statistics rows = some (calcT rows) :=
  foldlM_calcStep_eq rows [] (by intro p hp; cases hp) h

/-!  Permutation invariance of the fold primitives.  -/

theorem updOptMin_swap (o : Option ℚ) (x y : ℚ) :
    updOptMin (updOptMin o x) y = updOptMin (updOptMin o y) x := by
  cases o with
  | none => simp [updOptMin, min_comm]
  | some m => simp [updOptMin, min_right_comm]

theorem foldl_updOptMin_perm {l l2 : List ℚ} (h : l.Perm l2) :
    ∀ o, l.foldl updOptMin o = l2.foldl updOptMin o := by
  induction h with
  | nil => intro o; rfl
  | cons x _ ih => intro o; rw [List.foldl_cons, List.foldl_cons, ih]
  | swap x y l =>
    intro o
    rw [List.foldl_cons, List.foldl_cons, List.foldl_cons, List.foldl_cons,
      updOptMin_swap]
  | trans _ _ ih1 ih2 => intro o; rw [ih1, ih2]

theorem foldl_max_perm {l l2 : List ℚ} (h : l.Perm l2) :
    ∀ a : ℚ, l.foldl Max.max a = l2.foldl Max.max a := by
  induction h with
  | nil => intro a; rfl
  | cons x _ ih => intro a; rw [List.foldl_cons, List.foldl_cons, ih]
  | swap x y l =>
    intro a
    rw [List.foldl_cons, List.foldl_cons, List.foldl_cons, List.foldl_cons]
    congr 1
    exact sup_right_comm a y x
  | trans _ _ ih1 ih2 => intro a; rw [ih1, ih2]

theorem foldl_add_perm {l l2 : List ℚ} (h : l.Perm l2) :
    ∀ a : ℚ, l.foldl (fun a v => a + v) a = l2.foldl (fun a v => a + v) a := by
  intro a
  rw [foldl_add_shift, foldl_add_shift, h.sum_eq]

/-!  Skip behaviour of calculate_statistics.  -/

theorem keyOf_some_keep {r : Row} {k : String} (h : keyOf r = some k) :
    keepRow r = true := by
  rw [keyOf] at h
  cases hc : r "QueryText" with
  | absent => rw [hc] at h; simp [queryKey] at h
  | na => rw [hc] at h; simp [queryKey] at h
  | num q => simp [keepRow, hc]
  | txt s =>
    rw [hc] at h
    by_cases hb : pyStrip s = ""
    · simp [queryKey, hb] at h
    · simp [keepRow, hc, hb]

theorem keepRow_false_skip (acc : List (String × QueryStatistics)) (r : Row)
    (hq : r "QueryText" ≠ Cell.absent) (h : keepRow r = false) :
    calcStep acc r = some acc := by
  rw [calcStep, preprocessRow_queryText]
  cases hc : r "QueryText" with
  | absent => exact absurd hc hq
  | na => rfl
  | num q => simp [keepRow, hc] at h
  | txt s =>
    by_cases hb : pyStrip s = ""
    · simp [queryKey, hb]
    · simp [keepRow, hc, hb] at h

theorem keepRow_true_key {r : Row} (hq : r "QueryText" ≠ Cell.absent)
    (h : keepRow r = true) : ∃ k, keyOf r = some k := by
  cases hc : r "QueryText" with
  | absent => exact absurd hc hq
  | na => simp [keepRow, hc] at h
  | num q => exact ⟨toString q, by rw [keyOf]; rw [hc]; rfl⟩
  | txt s =>
    by_cases hb : pyStrip s = ""
    · simp [keepRow, hc, hb] at h
    · exact ⟨s, by rw [keyOf]; rw [hc]; simp [queryKey, hb]⟩

/-!  Claim C10: the seven count accumulators move in lockstep.  -/

/-- All six metric accumulators hold the same internal total count and
it equals the total_count of the owning QueryStatistics. -/
def countsAligned (qs : QueryStatistics) : Prop :=
  qs.duration.total_count = qs.total_count ∧
  qs.cpu_time.total_count = qs.total_count ∧
  qs.read_rows.total_count = qs.total_count ∧
  qs.read_bytes.total_count = qs.total_count ∧
  qs.update_rows.total_count = qs.total_count ∧
  qs.update_bytes.total_count = qs.total_count

theorem update_total_count {s : MetricStats} {row : Row} {t : MetricStats}
    {c : ℚ} (hc : parseCountCell (row "Count") = some c)
    (h : s.update row = some t) :
    t.total_count = s.total_count + c := by
  rw [MetricStats.update, hc] at h
  cases h1 : minUpd s (row s.min_column) with
  | none => rw [h1] at h; simp at h
  | some mn =>
    rw [h1] at h
    cases h2 : maxUpd s (row s.max_column) with
    | none => rw [h2] at h; simp at h
    | some mx =>
      rw [h2] at h
      cases h3 : sumUpd s (row s.sum_column) with
      | none => rw [h3] at h; simp at h
      | some sm =>
        rw [h3] at h
        cases h
        rfl

theorem update_from_row_aligned {qs q2 : QueryStatistics} {row : Row}
    (h : qs.update_from_row row = some q2) (hal : countsAligned qs) :
    countsAligned q2 := by
  rw [QueryStatistics.update_from_row] at h
  cases hpc : parseCountCell (row "Count") with
  | none => rw [hpc] at h; simp at h
  | some c =>
    rw [hpc] at h
    cases hd : qs.duration.update row with
    | none => rw [hd] at h; simp at h
    | some d =>
    rw [hd] at h
    cases hct : qs.cpu_time.update row with
    | none => rw [hct] at h; simp at h
    | some ct =>
    rw [hct] at h
    cases hrr : qs.read_rows.update row with
    | none => rw [hrr] at h; simp at h
    | some rr =>
    rw [hrr] at h
    cases hrb : qs.read_bytes.update row with
    | none => rw [hrb] at h; simp at h
    | some rb =>
    rw [hrb] at h
    cases hur : qs.update_rows.update row with
    | none => rw [hur] at h; simp at h
    | some ur =>
    rw [hur] at h
    cases hub : qs.update_bytes.update row with
    | none => rw [hub] at h; simp at h
    | some ub =>
    rw [hub] at h
    cases h
    obtain ⟨a1, a2, a3, a4, a5, a6⟩ := hal
    refine ⟨?_, ?_, ?_, ?_, ?_, ?_⟩ <;>
      simp only [update_total_count hpc hd, update_total_count hpc hct,
        update_total_count hpc hrr, update_total_count hpc hrb,
        update_total_count hpc hur, update_total_count hpc hub,
        a1, a2, a3, a4, a5, a6]

theorem foldlM_update_from_row_aligned (rows : List Row) :
    ∀ q0 : QueryStatistics, countsAligned q0 →
      ∀ qs, rows.foldlM QueryStatistics.update_from_row q0 = some qs →
        countsAligned qs := by
  induction rows with
  | nil =>
    intro q0 h0 qs h
    cases h
    exact h0
  | cons r t ih =>
    intro q0 h0 qs h
    rw [List.foldlM_cons] at h
    cases hu : q0.update_from_row r with
    | none => rw [hu] at h; simp at h
    | some q1 =>
      rw [hu] at h
      exact ih q1 (update_from_row_aligned hu h0) qs h

/-- C10: after every sequence of update_from_row calls on a fresh
QueryStatistics that all succeed, the six MetricStats hold one and the
same internal total count and it equals QueryStatistics.total_count:
every update adds an identical count weight to all seven counters. -/
theorem C10_counts_aligned (qt : String) (rows : List Row)
    (qs : QueryStatistics)
    (h : rows.foldlM QueryStatistics.update_from_row
        (QueryStatistics.init qt) = some qs) :
    countsAligned qs :=
  foldlM_update_from_row_aligned rows (QueryStatistics.init qt)
    ⟨rfl, rfl, rfl, rfl, rfl, rfl⟩ qs h

/-- A concrete row with only a Count column. -/
def c10row : Row := fun c => if c = "Count" then Cell.num 2 else Cell.absent

/-- Witness for C10 at a concrete one-row input. -/
theorem C10_witness :
    ∃ qs, [c10row].foldlM QueryStatistics.update_from_row
        (QueryStatistics.init "q") = some qs ∧ countsAligned qs := by
  have hfold : [c10row].foldlM QueryStatistics.update_from_row
      (QueryStatistics.init "q") =
      some ((QueryStatistics.init "q").update_from_rowT c10row) := by
    rw [List.foldlM_cons,
      QueryStatistics.update_from_row_eq _ _ (wf_init "q") (by decide)
        (fun c hmem hne => by unfold c10row; split <;> rfl)]
    rfl
  exact ⟨_, hfold, C10_counts_aligned "q" [c10row] _ hfold⟩

/-!  Claim C9: a NaN or unparseable Count makes the update succeed with
weight exactly 1.  -/

/-- C9: feeding a row whose Count value is NaN or a non-numeric string
into a QueryStatistics succeeds (no exception escapes: the NaN check
and the caught ValueError both fall back to 1.0) and the count weight
used is exactly 1. -/
theorem C9_count_default_one (qs : QueryStatistics) (row : Row)
    (hwf : qs.wf)
    (hcount : row "Count" = Cell.na ∨ (row "Count").isStr = true)
    (hmetrics : ∀ c ∈ numeric_columns, c ≠ "Count" → (row c).isStr = false) :
    qs.update_from_row row = some (qs.update_from_rowT row) ∧
    (qs.update_from_rowT row).total_count = qs.total_count + 1 := by
  have hc : row "Count" ≠ Cell.absent := by
    intro habs
    rcases hcount with h | h
    · rw [habs] at h; cases h
    · rw [habs] at h; cases h
  refine ⟨QueryStatistics.update_from_row_eq qs row hwf hc hmetrics, ?_⟩
  have h1 : countD (row "Count") = 1 := by
    cases hx : row "Count" with
    | absent => exact absurd hx hc
    | na => rfl
    | txt s => rfl
    | num q =>
      rcases hcount with h | h
      · rw [hx] at h; cases h
      · rw [hx] at h; cases h
  rw [show (qs.update_from_rowT row).total_count =
      qs.total_count + countD (row "Count") from rfl, h1]

/-- A concrete row whose Count is NaN. -/
def c9row : Row := fun c => if c = "Count" then Cell.na else Cell.absent

/-- Witness for C9 at a concrete input. -/
theorem C9_witness :
    ∃ q2, (QueryStatistics.init "w").update_from_row c9row = some q2 ∧
      q2.total_count = (QueryStatistics.init "w").total_count + 1 := by
  obtain ⟨h1, h2⟩ := C9_count_default_one (QueryStatistics.init "w") c9row
    (wf_init "w") (Or.inl (by decide))
    (fun c hm hn => by unfold c9row; split <;> rfl)
  exact ⟨_, h1, h2⟩

/-!  Claim C4: min is at most max once an update has run.  The claim as
stated fails: the accumulator trusts the Min and Max columns of the
rows, so a row with Min greater than Max (or with max still at its
initial 0 above all data) breaks the inequality.  It holds for rows
whose Min value is at most their Max value.  -/

theorem isNum_not_isStr {x : Cell} (h : x.isNum = true) : x.isStr = false := by
  cases x <;> simp_all [Cell.isNum, Cell.isStr]

theorem isNum_ne_absent {x : Cell} (h : x.isNum = true) : x ≠ Cell.absent := by
  cases x <;> simp_all [Cell.isNum]

theorem isNum_eq_num {x : Cell} (h : x.isNum = true) :
    x = Cell.num (effVal x) := by
  cases x <;> simp_all [Cell.isNum, effVal]

/-- A row suitable for accumulating metric nm: Count is present, the
Min and Max cells are numeric with Min at most Max, and the Sum cell is
not a string. -/
def c4RowOk (nm : String) (r : Row) : Prop :=
  r "Count" ≠ Cell.absent ∧
  (r ("Min" ++ nm)).isNum = true ∧
  (r ("Max" ++ nm)).isNum = true ∧
  effVal (r ("Min" ++ nm)) ≤ effVal (r ("Max" ++ nm)) ∧
  (r ("Sum" ++ nm)).isStr = false

/-- Invariant carried along the fold for claim C4. -/
def c4Inv (nm : String) (scale : ℚ) (s : MetricStats) : Prop :=
  s.min_column = "Min" ++ nm ∧ s.max_column = "Max" ++ nm ∧
  s.sum_column = "Sum" ++ nm ∧ s.scale = scale ∧ 0 ≤ s.max ∧
  ∀ m, s.min = some m → m ≤ s.max

theorem c4_step {nm : String} {scale : ℚ} (hs : 0 < scale)
    {s : MetricStats} {r : Row} (hinv : c4Inv nm scale s)
    (hrow : c4RowOk nm r) :
    s.update r = some (s.updateT r) ∧ c4Inv nm scale (s.updateT r) ∧
    (s.updateT r).min.isSome = true := by
  obtain ⟨hm1, hm2, hm3, hsc, hmax0, hminmax⟩ := hinv
  obtain ⟨hc, hminN, hmaxN, hle, hsumS⟩ := hrow
  have hbr := MetricStats.update_eq_updateT s r hc
    (by rw [hm1]; exact isNum_not_isStr hminN)
    (by rw [hm2]; exact isNum_not_isStr hmaxN)
    (by rw [hm3]; exact hsumS)
  have hminCell : r s.min_column = Cell.num (effVal (r ("Min" ++ nm))) := by
    rw [hm1]; exact isNum_eq_num hminN
  have hmaxCell : r s.max_column = Cell.num (effVal (r ("Max" ++ nm))) := by
    rw [hm2]; exact isNum_eq_num hmaxN
  have hminT : (s.updateT r).min =
      updOptMin s.min (effVal (r ("Min" ++ nm)) / scale) := by
    show (match r s.min_column with
      | Cell.num v => updOptMin s.min (v / s.scale)
      | _ => s.min) = _
    rw [hminCell, hsc]
  have hmaxT : (s.updateT r).max =
      Max.max s.max (effVal (r ("Max" ++ nm)) / scale) := by
    show (match r s.max_column with
      | Cell.num v => Max.max s.max (v / s.scale)
      | _ => s.max) = _
    rw [hmaxCell, hsc]
  have hdiv : effVal (r ("Min" ++ nm)) / scale ≤
      effVal (r ("Max" ++ nm)) / scale := by gcongr
  refine ⟨hbr, ⟨hm1, hm2, hm3, hsc, ?_, ?_⟩, ?_⟩
  · rw [hmaxT]; exact le_trans hmax0 (le_max_left _ _)
  · intro m hm
    rw [hminT] at hm
    rw [hmaxT]
    cases hsmin : s.min with
    | none =>
      rw [hsmin, updOptMin] at hm
      cases hm
      exact le_trans hdiv (le_max_right _ _)
    | some m0 =>
      rw [hsmin, updOptMin] at hm
      cases hm
      exact le_trans (le_trans (min_le_left _ _) (hminmax m0 hsmin))
        (le_max_left _ _)
  · rw [hminT]; cases s.min <;> rfl

theorem c4_fold {nm : String} {scale : ℚ} (hs : 0 < scale)
    (rows : List Row) :
    ∀ s : MetricStats, c4Inv nm scale s → (∀ r ∈ rows, c4RowOk nm r) →
      ∀ t, rows.foldlM MetricStats.update s = some t →
        c4Inv nm scale t ∧ (s.min.isSome = true → t.min.isSome = true) ∧
        (rows ≠ [] → t.min.isSome = true) := by
  induction rows with
  | nil =>
    intro s hinv _ t h
    cases h
    exact ⟨hinv, fun h2 => h2, fun h2 => absurd rfl h2⟩
  | cons r rest ih =>
    intro s hinv hrows t h
    obtain ⟨hbr, hinv2, hsome⟩ :=
      c4_step hs hinv (hrows r (List.mem_cons_self _ _))
    rw [List.foldlM_cons, hbr] at h
    obtain ⟨hi, hmono, _⟩ := ih (s.updateT r) hinv2
      (fun q hq => hrows q (List.mem_cons_of_mem _ hq)) t h
    exact ⟨hi, fun _ => hmono hsome, fun _ => hmono hsome⟩

/-- C4 amended: for a fresh accumulator for metric nm with positive
scale, after at least one successful update with rows whose Min value
is at most their Max value, min is finite and at most max (both in
scaled units). -/
theorem C4_min_le_max (nm : String) (scale : ℚ) (hs : 0 < scale)
    (rows : List Row) (hne : rows ≠ [])
    (hrows : ∀ r ∈ rows, c4RowOk nm r) (s : MetricStats)
    (hfold : rows.foldlM MetricStats.update
        (MetricStats.create_for_metric nm scale) = some s) :
    ∃ m, s.min = some m ∧ m ≤ s.max := by
  have hinv0 : c4Inv nm scale (MetricStats.create_for_metric nm scale) :=
    ⟨rfl, rfl, rfl, rfl, le_refl 0, fun m hm => by cases hm⟩
  obtain ⟨hi, _, hsome⟩ := c4_fold hs rows _ hinv0 hrows s hfold
  obtain ⟨m, hm⟩ := Option.isSome_iff_exists.mp (hsome hne)
  exact ⟨m, hm, hi.2.2.2.2.2 m hm⟩

/-- A row whose MinUpdateRows exceeds its MaxUpdateRows. -/
def c4xrow : Row := fun c =>
  if c = "Count" then Cell.num 1
  else if c = "MinUpdateRows" then Cell.num 2
  else if c = "MaxUpdateRows" then Cell.num 1
  else if c = "SumUpdateRows" then Cell.num 0
  else Cell.absent

/-- C4 counterexample: updating a fresh UpdateRows accumulator with one
row whose Min cell is 2 and Max cell is 1 leaves min = 2 above
max = 1, refuting the claim for arbitrary row sequences. -/
theorem C4_counterexample :
    ((MetricStats.create_for_metric "UpdateRows" 1).update c4xrow).map
      (fun s => (s.min, s.max)) = some (some 2, 1) ∧ ¬((2 : ℚ) ≤ 1) := by
  constructor
  · norm_num +decide [MetricStats.update, MetricStats.create_for_metric,
      MetricStats.init, parseCountCell, minUpd, maxUpd, sumUpd, updOptMin,
      c4xrow]
  · norm_num

/-- A row whose MinUpdateRows is below its MaxUpdateRows. -/
def c4wrow : Row := fun c =>
  if c = "Count" then Cell.num 1
  else if c = "MinUpdateRows" then Cell.num 3
  else if c = "MaxUpdateRows" then Cell.num 5
  else Cell.absent

/-- Witness for the amended C4 at a concrete one-row input. -/
theorem C4_witness :
    ∃ s, [c4wrow].foldlM MetricStats.update
        (MetricStats.create_for_metric "UpdateRows" 1) = some s ∧
      ∃ m, s.min = some m ∧ m ≤ s.max := by
  have hfold : [c4wrow].foldlM MetricStats.update
      (MetricStats.create_for_metric "UpdateRows" 1) =
      some ((MetricStats.create_for_metric "UpdateRows" 1).updateT c4wrow) := by
    rw [List.foldlM_cons, MetricStats.update_eq_updateT _ _ (by decide)
      (by decide) (by decide) (by decide)]
    rfl
  refine ⟨_, hfold, C4_min_le_max "UpdateRows" 1 one_pos [c4wrow]
    (by simp) (fun r hr => ?_) _ hfold⟩
  rw [List.mem_singleton.mp hr]
  refine ⟨by decide, by decide, by decide, ?_, by decide⟩
  norm_num +decide [c4wrow, effVal]

/-!  Claim C6: the per-event transform sets Min = Max = Sum to the
numeric value of each source column and Count to 1.  -/

theorem tvalue_eq (r : Row) (src : String) :
    tvalue r src = Cell.num (effVal (r src)) := by
  rw [tvalue]
  by_cases h : r src = Cell.absent
  · rw [if_pos h, h]; rfl
  · rw [if_neg h]
    cases hx : r src with
    | absent => exact absurd hx h
    | na => rfl
    | num q => rfl
    | txt s => rfl

/-- C6: every output row of the per-event transform comes from an input
row and carries, for each of the six metrics, Min = Max = Sum = the
numeric conversion of the single source value (0 for NaN, unparseable
or absent cells), and Count = 1. -/
theorem C6_transform (rows : List Row) (rr : Row)
    (h : rr ∈ transform_top_queries_to_query_metrics rows) :
    ∃ r ∈ rows,
      (∀ b ∈ six_metric_sources,
        rr ("Min" ++ b) = Cell.num (effVal (r b)) ∧
        rr ("Max" ++ b) = Cell.num (effVal (r b)) ∧
        rr ("Sum" ++ b) = Cell.num (effVal (r b))) ∧
      rr "Count" = Cell.num 1 := by
  rw [transform_top_queries_to_query_metrics.eq_def] at h
  obtain ⟨r, hr, rfl⟩ := List.mem_map.mp h
  have hmem : r ∈ rows := by
    cases rows with
    | nil => exact hr
    | cons a t =>
      replace hr : r ∈ (if a "CPUTime" = Cell.txt "CPUTime" then t else a :: t) := hr
      by_cases hh : a "CPUTime" = Cell.txt "CPUTime"
      · rw [if_pos hh] at hr
        exact List.mem_cons_of_mem _ hr
      · rw [if_neg hh] at hr
        exact hr
  refine ⟨r, hmem, ?_, ?_⟩
  · intro b hb
    fin_cases hb <;> exact ⟨by simp +decide [transform_row, tvalue_eq],
      by simp +decide [transform_row, tvalue_eq],
      by simp +decide [transform_row, tvalue_eq]⟩
  · simp +decide [transform_row]

/-- A concrete per-event row with a CPUTime value only. -/
def browC6 : Row := fun c => if c = "CPUTime" then Cell.num 7 else Cell.absent

/-- Witness for C6 at a concrete one-row input. -/
theorem C6_witness :
    ∃ r ∈ [browC6],
      (∀ b ∈ six_metric_sources,
        transform_row browC6 ("Min" ++ b) = Cell.num (effVal (r b)) ∧
        transform_row browC6 ("Max" ++ b) = Cell.num (effVal (r b)) ∧
        transform_row browC6 ("Sum" ++ b) = Cell.num (effVal (r b))) ∧
      transform_row browC6 "Count" = Cell.num 1 :=
  C6_transform [browC6] (transform_row browC6)
    (by simp +decide [transform_top_queries_to_query_metrics])

/-!  Claim C7: format detection.  The claim restricts the column-count
fallback to headerless tables, but the source applies it to any table
in which no marker was recognized; a headered 29-column table without
markers detects as top_queries instead of raising.  -/

/-- Both schema A markers among the string column labels. -/
def colMarkersA (t : PTable) : Bool :=
  t.headIsStr && (t.hasHeader "MinDuration" && t.hasHeader "MaxDuration")

/-- Both schema B markers among the string column labels. -/
def colMarkersB (t : PTable) : Bool :=
  t.headIsStr && (t.hasHeader "CPUTime" && t.hasHeader "Duration")

/-- Both schema A markers among the first-row values. -/
def rowMarkersA (t : PTable) : Bool :=
  t.firstRow.contains "MinDuration" && t.firstRow.contains "MaxDuration"

/-- Both schema B markers among the first-row values. -/
def rowMarkersB (t : PTable) : Bool :=
  t.firstRow.contains "CPUTime" && t.firstRow.contains "Duration"

/-- Modelled from the claim wording of C7: the inputs on which the
claim says detection succeeds; it is claimed to raise
FormatDetectionError in exactly the remaining cases.  The column-count
rules are stated for headerless tables only. -/
def C7_claim_resolves (t : PTable) : Prop :=
  (colMarkersA t = true ∨ rowMarkersA t = true) ∨
  (colMarkersB t = true ∨ rowMarkersB t = true) ∨
  (t.headIsStr = false ∧ (t.ncols = 29 ∨ t.ncols = 28))

/-- The source as one if-chain: the header checks run first and the
column-count fallback applies to every table, headered or not. -/
theorem detect_eq (t : PTable) :
    detect_file_format t =
      if colMarkersA t then Except.ok FileFormat.query_metrics
      else if colMarkersB t then Except.ok FileFormat.top_queries
      else if rowMarkersA t then Except.ok FileFormat.query_metrics
      else if rowMarkersB t then Except.ok FileFormat.top_queries
      else if t.ncols = 29 then Except.ok FileFormat.top_queries
      else if t.ncols = 28 then Except.ok FileFormat.query_metrics
      else Except.error "Unable to detect file format" := by
  unfold detect_file_format colMarkersA colMarkersB rowMarkersA rowMarkersB
  cases hh : t.headIsStr <;>
    cases h1 : t.hasHeader "MinDuration" <;>
    cases h2 : t.hasHeader "MaxDuration" <;>
    cases h3 : t.hasHeader "CPUTime" <;>
    cases h4 : t.hasHeader "Duration" <;>
    simp_all

/-- A headered 29-column table with no recognizable markers. -/
def t29ex : PTable :=
  { headers := some ["c01", "c02", "c03", "c04", "c05", "c06", "c07",
      "c08", "c09", "c10", "c11", "c12", "c13", "c14", "c15", "c16",
      "c17", "c18", "c19", "c20", "c21", "c22", "c23", "c24", "c25",
      "c26", "c27", "c28", "c29"],
    firstRow := [], ncols := 29 }

/-- C7 counterexample: a headered, markerless, 29-column table is one
of the remaining cases of the claim (so the claim demands
FormatDetectionError), yet detection returns top_queries via the
column-count fallback. -/
theorem C7_counterexample :
    detect_file_format t29ex = Except.ok FileFormat.top_queries ∧
    ¬C7_claim_resolves t29ex := by
  refine ⟨rfl, ?_⟩
  rw [C7_claim_resolves]
  decide

/-- C7 amended: detection checks, in order, header markers for schema A
then B, first-row markers for A then B, then the column counts 29 (B)
and 28 (A) regardless of headers, and raises exactly when all checks
fail. -/
theorem C7_detect_characterization (t : PTable) :
    (colMarkersA t = true →
      detect_file_format t = Except.ok FileFormat.query_metrics) ∧
    (colMarkersA t = false → colMarkersB t = true →
      detect_file_format t = Except.ok FileFormat.top_queries) ∧
    (colMarkersA t = false → colMarkersB t = false → rowMarkersA t = true →
      detect_file_format t = Except.ok FileFormat.query_metrics) ∧
    (colMarkersA t = false → colMarkersB t = false → rowMarkersA t = false →
      rowMarkersB t = true →
      detect_file_format t = Except.ok FileFormat.top_queries) ∧
    (colMarkersA t = false → colMarkersB t = false → rowMarkersA t = false →
      rowMarkersB t = false → t.ncols = 29 →
      detect_file_format t = Except.ok FileFormat.top_queries) ∧
    (colMarkersA t = false → colMarkersB t = false → rowMarkersA t = false →
      rowMarkersB t = false → t.ncols ≠ 29 → t.ncols = 28 →
      detect_file_format t = Except.ok FileFormat.query_metrics) ∧
    (detect_file_format t = Except.error "Unable to detect file format" ↔
      colMarkersA t = false ∧ colMarkersB t = false ∧ rowMarkersA t = false ∧
      rowMarkersB t = false ∧ t.ncols ≠ 29 ∧ t.ncols ≠ 28) := by
  refine ⟨?_, ?_, ?_, ?_, ?_, ?_, ?_⟩
  · intro hA; rw [detect_eq, if_pos hA]
  · intro hA hB; rw [detect_eq]; simp [hA, hB]
  · intro hA hB hRA; rw [detect_eq]; simp [hA, hB, hRA]
  · intro hA hB hRA hRB; rw [detect_eq]; simp [hA, hB, hRA, hRB]
  · intro hA hB hRA hRB h29; rw [detect_eq]; simp [hA, hB, hRA, hRB, h29]
  · intro hA hB hRA hRB h29 h28
    rw [detect_eq]
    simp [hA, hB, hRA, hRB, h29, h28]
  · rw [detect_eq]
    constructor
    · intro h
      split_ifs at h
      simp_all
    · rintro ⟨c1, c2, c3, c4, c5, c6⟩
      simp [c1, c2, c3, c4, c5, c6]

/-- A headered table carrying both schema A markers. -/
def tAex : PTable :=
  { headers := some ["MinDuration", "MaxDuration"], firstRow := [], ncols := 2 }

/-- Witness for the amended C7 at a concrete table. -/
theorem C7_witness :
    detect_file_format tAex = Except.ok FileFormat.query_metrics :=
  (C7_detect_characterization tAex).1 (by decide)

/-!  Claim C3: the regex predicate.  The builder registers the negation
of the case-insensitive regular-expression search (the tilde on line 85
of query_filter.py), so rows matching a regex pattern are dropped, while
the claim, the repository test test_filter_queries_regex and the CLI
help text all say matching rows are kept.  -/

/-- The three QueryText values of the query_metrics_df fixture of
tests/conftest.py. -/
def fixtureTexts : List String :=
  ["SELECT * FROM table_alpha WHERE id = 123",
   "SELECT name, value FROM table_beta WHERE status = \"active\"",
   "SELECT COUNT(*) FROM table_gamma GROUP BY category"]

/-- C3 (code bug, evaluated at the failing input of the repository own
test): each of the three fixture texts matches the regular expression
of the test case (so the matcher argument, instantiated as constantly
true, coincides with the pandas case-insensitive search on these
inputs), yet filter_queries returns no rows where the test asserts all
three survive. -/
theorem C3_regex_negated :
    filter_queries (fun _ _ => true) fixtureTexts [] [] ["table_[a-z]+"] = [] ∧
    fixtureTexts.length = 3 ∧ ([] : List String) ≠ fixtureTexts := by
  refine ⟨rfl, rfl, ?_⟩
  decide

/-!  Claim C8: rows with empty or missing query text are skipped and
affect nothing.  -/

theorem calcStep_mem {acc acc2 : List (String × QueryStatistics)} {r : Row}
    (h : calcStep acc r = some acc2) :
    ∀ p ∈ acc2, p ∈ acc ∨ (keepRow r = true ∧ keyOf r = some p.1) := by
  intro p hp
  rw [calcStep, preprocessRow_queryText] at h
  cases hq : queryKey (r "QueryText") with
  | none => rw [hq] at h; cases h
  | some o =>
    cases o with
    | none =>
      rw [hq] at h
      cases h
      exact Or.inl hp
    | some k =>
      rw [hq] at h
      replace h : (match ((lookupA acc k).getD
          (QueryStatistics.init k)).update_from_row (preprocessRow r) with
        | none => none
        | some qs => some (insertA acc k qs)) = some acc2 := h
      cases hu : ((lookupA acc k).getD (QueryStatistics.init k)).update_from_row
          (preprocessRow r) with
      | none => rw [hu] at h; cases h
      | some qs =>
        rw [hu] at h
        cases h
        rcases mem_insertA hp with h1 | h1
        · exact Or.inl h1
        · have hk : keyOf r = some k := by rw [keyOf]; rw [hq]
          exact Or.inr ⟨keyOf_some_keep hk, by rw [h1]; exact hk⟩

theorem foldlM_calcStep_filter (rows : List Row) :
    ∀ acc : List (String × QueryStatistics),
      (∀ r ∈ rows, r "QueryText" ≠ Cell.absent) →
      rows.foldlM calcStep acc = (rows.filter keepRow).foldlM calcStep acc := by
  induction rows with
  | nil => intro acc _; rfl
  | cons r t ih =>
    intro acc h
    rw [List.filter_cons]
    by_cases hk : keepRow r = true
    · rw [if_pos hk, List.foldlM_cons, List.foldlM_cons]
      cases hstep : calcStep acc r with
      | none => rfl
      | some acc2 =>
        show t.foldlM calcStep acc2 = (t.filter keepRow).foldlM calcStep acc2
        exact ih acc2 (fun q hq => h q (List.mem_cons_of_mem _ hq))
    · rw [if_neg hk, List.foldlM_cons,
        keepRow_false_skip acc r (h r (List.mem_cons_self _ _))
          (Bool.eq_false_iff.mpr hk)]
      show t.foldlM calcStep acc = (t.filter keepRow).foldlM calcStep acc
      exact ih acc (fun q hq => h q (List.mem_cons_of_mem _ hq))

theorem foldlM_calcStep_keys (rows : List Row) :
    ∀ (acc : List (String × QueryStatistics)) m,
      rows.foldlM calcStep acc = some m → ∀ p ∈ m,
        p ∈ acc ∨ ∃ r ∈ rows, keepRow r = true ∧ keyOf r = some p.1 := by
  induction rows with
  | nil =>
    intro acc m h p hp
    cases h
    exact Or.inl hp
  | cons r t ih =>
    intro acc m h p hp
    rw [List.foldlM_cons] at h
    cases hstep : calcStep acc r with
    | none => rw [hstep] at h; exact absurd h (by simp)
    | some acc2 =>
      rw [hstep] at h
      replace h : t.foldlM calcStep acc2 = some m := h
      rcases ih acc2 m h p hp with h1 | ⟨r2, hr2, hk2, hkey2⟩
      · rcases calcStep_mem hstep p h1 with h2 | ⟨hk, hkey⟩
        · exact Or.inl h2
        · exact Or.inr ⟨r, List.mem_cons_self _ _, hk, hkey⟩
      · exact Or.inr ⟨r2, List.mem_cons_of_mem _ hr2, hk2, hkey2⟩

/-- C8: when every row has a QueryText column, aggregating all rows
gives exactly the same result as aggregating only the kept rows (those
whose query text is neither NaN nor blank after strip), and every key
of the result originates from a kept row. -/
theorem C8_empty_query_skipped (rows : List Row)
    (h : ∀ r ∈ rows, r "QueryText" ≠ Cell.absent) :
    calculate_statistics rows = calculate_statistics (rows.filter keepRow) ∧
    ∀ m, calculate_statistics rows = some m → ∀ p ∈ m,
      ∃ r ∈ rows, keepRow r = true ∧ keyOf r = some p.1 := by
  constructor
  · exact foldlM_calcStep_filter rows [] h
  · intro m hm p hp
    rcases foldlM_calcStep_keys rows [] m hm p hp with h1 | h1
    · cases h1
    · exact h1

/-- A row with blank query text. -/
def c8rowBlank : Row := fun c =>
  if c = "QueryText" then Cell.txt "  "
  else if c = "Count" then Cell.num 1 else Cell.absent

/-- A row with a real query text. -/
def c8rowGood : Row := fun c =>
  if c = "QueryText" then Cell.txt "q"
  else if c = "Count" then Cell.num 1 else Cell.absent

/-- Witness for C8 at a concrete two-row input. -/
theorem C8_witness :
    calculate_statistics [c8rowBlank, c8rowGood] =
      calculate_statistics ([c8rowBlank, c8rowGood].filter keepRow) ∧
    ∀ m, calculate_statistics [c8rowBlank, c8rowGood] = some m → ∀ p ∈ m,
      ∃ r ∈ [c8rowBlank, c8rowGood], keepRow r = true ∧ keyOf r = some p.1 :=
  C8_empty_query_skipped [c8rowBlank, c8rowGood] (by decide)

/-!  Canonical rows pass through the numeric preprocessing unchanged.  -/

theorem convertCell_present {x : Cell} (h : x ≠ Cell.absent) :
    convertCell x = Cell.num (effVal x) := by
  cases x <;> simp_all [convertCell, effVal]

theorem preprocess_canonical {r : Row} (h : canonicalRow r) :
    preprocessRow r = r := by
  funext c
  rw [preprocessRow]
  by_cases hc : c ∈ numeric_columns
  · rw [if_pos hc]
    calc convertCell (r c)
        = convertCell (Cell.num (effVal (r c))) := by
          rw [← isNum_eq_num (h c hc)]
      _ = Cell.num (effVal (r c)) := rfl
      _ = r c := (isNum_eq_num (h c hc)).symm
  · rw [if_neg hc]

theorem scaledVals_cons_num {r : Row} {col : String} {q : ℚ}
    (hx : r col = Cell.num q) (scale : ℚ) (t : List Row) :
    scaledVals scale col (r :: t) = (q / scale) :: scaledVals scale col t := by
  simp [scaledVals, List.filterMap_cons, hx]

theorem sumVals_cons_num {r : Row} {col : String} {q : ℚ}
    (hx : r col = Cell.num q) (t : List Row) :
    sumVals col (r :: t) = q :: sumVals col t := by
  simp [sumVals, List.filterMap_cons, hx]

theorem scaledVals_canonical (scale : ℚ) (col : String) (rows : List Row)
    (h : ∀ r ∈ rows, (r col).isNum = true) :
    scaledVals scale col rows = rows.map (fun r => effVal (r col) / scale) := by
  induction rows with
  | nil => rfl
  | cons r t ih =>
    rw [scaledVals_cons_num (isNum_eq_num (h r (List.mem_cons_self _ _))) scale t,
      List.map_cons, ih (fun q hq => h q (List.mem_cons_of_mem _ hq))]

theorem sumVals_canonical (col : String) (rows : List Row)
    (h : ∀ r ∈ rows, (r col).isNum = true) :
    sumVals col rows = rows.map (fun r => effVal (r col)) := by
  induction rows with
  | nil => rfl
  | cons r t ih =>
    rw [sumVals_cons_num (isNum_eq_num (h r (List.mem_cons_self _ _))) t,
      List.map_cons, ih (fun q hq => h q (List.mem_cons_of_mem _ hq))]

/-!  Claim C1: per-query min, max and sum.  The claim as stated fails
for max: the accumulator starts max at 0, so all-negative Max columns
leave max at 0 rather than at the row maximum.  min and sum are exactly
as claimed; max is the maximum clamped from below by 0.  -/

/-- The amended per-metric contract: min is the minimum of the scaled
Min values, max is 0 clamped below the maximum of the scaled Max
values, and sum is the unscaled total of the Sum values. -/
def metricMatches (acc : MetricStats) (base : String) (scale : ℚ)
    (rows : List Row) : Prop :=
  acc.min = (rows.map (fun r => effVal (r ("Min" ++ base)) / scale)).min? ∧
  (∀ M, (rows.map (fun r => effVal (r ("Max" ++ base)) / scale)).max? = some M →
    acc.max = Max.max 0 M) ∧
  acc.sum = (rows.map (fun r => effVal (r ("Sum" ++ base)))).sum

theorem metricMatches_fold (base : String) (scale : ℚ) (rows : List Row)
    (hne : rows ≠ [])
    (hmin : ∀ r ∈ rows, (r ("Min" ++ base)).isNum = true)
    (hmax : ∀ r ∈ rows, (r ("Max" ++ base)).isNum = true)
    (hsum : ∀ r ∈ rows, (r ("Sum" ++ base)).isNum = true) :
    metricMatches
      (rows.foldl MetricStats.updateT (MetricStats.create_for_metric base scale))
      base scale rows := by
  refine ⟨?_, ?_, ?_⟩
  · rw [foldl_updateT_min]
    show (scaledVals scale ("Min" ++ base) rows).foldl updOptMin none = _
    rw [scaledVals_canonical scale _ rows hmin, foldl_updOptMin_none]
  · intro M hM
    rw [foldl_updateT_max]
    show (scaledVals scale ("Max" ++ base) rows).foldl Max.max 0 = Max.max 0 M
    rw [scaledVals_canonical scale _ rows hmax]
    obtain ⟨M2, hM2, hfold⟩ := foldl_max_zero
      (rows.map (fun r => effVal (r ("Max" ++ base)) / scale))
      (by simpa using hne)
    rw [hM] at hM2
    cases hM2
    exact hfold
  · rw [foldl_updateT_sum]
    show (sumVals ("Sum" ++ base) rows).foldl (fun a v => a + v) 0 = _
    rw [sumVals_canonical _ rows hsum, foldl_add_shift, zero_add]

theorem foldl_calcStepT_single (rows : List Row) (qt : String)
    (hkeys : ∀ r ∈ rows, keyOf r = some qt) :
    ∀ q0 : QueryStatistics,
      rows.foldl calcStepT [(qt, q0)] = [(qt, rows.foldl feedP q0)] := by
  induction rows with
  | nil => intro q0; rfl
  | cons r t ih =>
    intro q0
    rw [List.foldl_cons, List.foldl_cons, calcStepT_eq,
      hkeys r (List.mem_cons_self _ _)]
    have hla : lookupA [(qt, q0)] qt = some q0 := by
      rw [lookupA, if_pos rfl]
    show t.foldl calcStepT
        (insertA [(qt, q0)] qt
          (feedP ((lookupA [(qt, q0)] qt).getD (QueryStatistics.init qt)) r)) =
      [(qt, t.foldl feedP (feedP q0 r))]
    rw [hla, Option.getD_some, insertA, if_pos rfl]
    exact ih (fun q hq => hkeys q (List.mem_cons_of_mem _ hq)) (feedP q0 r)

theorem calcT_single (qt : String) (rows : List Row) (hne : rows ≠ [])
    (hkeys : ∀ r ∈ rows, keyOf r = some qt) :
    calcT rows = [(qt, rows.foldl feedP (QueryStatistics.init qt))] := by
  cases rows with
  | nil => exact absurd rfl hne
  | cons r0 t =>
    rw [calcT, List.foldl_cons, List.foldl_cons, calcStepT_eq,
      hkeys r0 (List.mem_cons_self _ _)]
    show t.foldl calcStepT
        (insertA [] qt
          (feedP ((lookupA [] qt).getD (QueryStatistics.init qt)) r0)) = _
    show t.foldl calcStepT [(qt, feedP (QueryStatistics.init qt) r0)] = _
    exact foldl_calcStepT_single t qt
      (fun q hq => hkeys q (List.mem_cons_of_mem _ hq))
      (feedP (QueryStatistics.init qt) r0)

theorem foldl_feedP_canonical (rows : List Row)
    (hcanon : ∀ r ∈ rows, canonicalRow r) :
    ∀ q0 : QueryStatistics,
      rows.foldl feedP q0 = rows.foldl QueryStatistics.update_from_rowT q0 := by
  induction rows with
  | nil => intro q0; rfl
  | cons r t ih =>
    intro q0
    rw [List.foldl_cons, List.foldl_cons, feedP,
      preprocess_canonical (hcanon r (List.mem_cons_self _ _))]
    exact ih (fun q hq => hcanon q (List.mem_cons_of_mem _ hq)) _

/-- C1 amended: aggregating a non-empty sequence of canonical rows that
share one non-blank query text yields a single entry whose accumulators
satisfy, per metric: min is the minimum of Min values over the rows
divided by the scale, max is the maximum of the scaled Max values
clamped from below by the initial 0, and sum is the unscaled total of
the Sum values. -/
theorem C1_minmaxsum (qt : String) (rows : List Row) (hne : rows ≠ [])
    (hq : ∀ r ∈ rows, r "QueryText" = Cell.txt qt) (hqt : pyStrip qt ≠ "")
    (hcanon : ∀ r ∈ rows, canonicalRow r) :
    ∃ qs, calculate_statistics rows = some [(qt, qs)] ∧
      metricMatches qs.duration "Duration" 1000000 rows ∧
      metricMatches qs.cpu_time "CPUTime" 1000000 rows ∧
      metricMatches qs.read_rows "ReadRows" 1 rows ∧
      metricMatches qs.read_bytes "ReadBytes" 1 rows ∧
      metricMatches qs.update_rows "UpdateRows" 1 rows ∧
      metricMatches qs.update_bytes "UpdateBytes" 1 rows := by
  have hkeys : ∀ r ∈ rows, keyOf r = some qt := by
    intro r hr
    rw [keyOf]
    rw [hq r hr]
    simp [queryKey, hqt]
  have hok : ∀ r ∈ rows, r "QueryText" ≠ Cell.absent ∧ r "Count" ≠ Cell.absent := by
    intro r hr
    refine ⟨by rw [hq r hr]; simp, ?_⟩
    exact isNum_ne_absent (hcanon r hr "Count" (by decide))
  have hcalc : calculate_statistics rows =
      some [(qt, rows.foldl QueryStatistics.update_from_rowT
        (QueryStatistics.init qt))] := by
    rw [calc_eq_calcT rows hok, calcT_single qt rows hne hkeys,
      foldl_feedP_canonical rows hcanon]
  refine ⟨_, hcalc, ?_, ?_, ?_, ?_, ?_, ?_⟩
  · rw [foldl_rowT_duration]
    exact metricMatches_fold "Duration" 1000000 rows hne
      (fun r hr => hcanon r hr _ (by decide))
      (fun r hr => hcanon r hr _ (by decide))
      (fun r hr => hcanon r hr _ (by decide))
  · rw [foldl_rowT_cpu_time]
    exact metricMatches_fold "CPUTime" 1000000 rows hne
      (fun r hr => hcanon r hr _ (by decide))
      (fun r hr => hcanon r hr _ (by decide))
      (fun r hr => hcanon r hr _ (by decide))
  · rw [foldl_rowT_read_rows]
    exact metricMatches_fold "ReadRows" 1 rows hne
      (fun r hr => hcanon r hr _ (by decide))
      (fun r hr => hcanon r hr _ (by decide))
      (fun r hr => hcanon r hr _ (by decide))
  · rw [foldl_rowT_read_bytes]
    exact metricMatches_fold "ReadBytes" 1 rows hne
      (fun r hr => hcanon r hr _ (by decide))
      (fun r hr => hcanon r hr _ (by decide))
      (fun r hr => hcanon r hr _ (by decide))
  · rw [foldl_rowT_update_rows]
    exact metricMatches_fold "UpdateRows" 1 rows hne
      (fun r hr => hcanon r hr _ (by decide))
      (fun r hr => hcanon r hr _ (by decide))
      (fun r hr => hcanon r hr _ (by decide))
  · rw [foldl_rowT_update_bytes]
    exact metricMatches_fold "UpdateBytes" 1 rows hne
      (fun r hr => hcanon r hr _ (by decide))
      (fun r hr => hcanon r hr _ (by decide))
      (fun r hr => hcanon r hr _ (by decide))

/-- A canonical row whose MaxUpdateRows is negative. -/
def c1xrow : Row := fun c =>
  if c = "QueryText" then Cell.txt "q"
  else if c = "MaxUpdateRows" then Cell.num (-1)
  else if c ∈ numeric_columns then Cell.num 0
  else Cell.absent

/-- C1 counterexample: one canonical row with MaxUpdateRows equal to -1
aggregates to an update_rows accumulator whose max is 0 (the initial
value), while the maximum of Max values over the rows divided by the
scale is -1: max is not the row maximum. -/
theorem C1_counterexample :
    (calculate_statistics [c1xrow]).map
      (fun l => l.map (fun p => (p.1, p.2.update_rows.max))) =
      some [("q", 0)] ∧
    ([c1xrow].map (fun r => effVal (r "MaxUpdateRows") / 1)).max? =
      some (-1) ∧
    ¬((0 : ℚ) = -1) := by
  refine ⟨?_, ?_, by norm_num⟩
  · norm_num +decide [calculate_statistics, calcStep, preprocessRow, queryKey,
      pyStrip, QueryStatistics.update_from_row, QueryStatistics.init,
      MetricStats.update, MetricStats.create_for_metric, MetricStats.init,
      parseCountCell, minUpd, maxUpd, sumUpd, updOptMin, lookupA, insertA,
      convertCell, numeric_columns, c1xrow]
  · rw [List.map_cons, List.map_nil, List.max?_cons']
    norm_num +decide [c1xrow, effVal]

/-- A canonical row with every numeric column equal to 1. -/
def c1wrow : Row := fun c =>
  if c = "QueryText" then Cell.txt "q"
  else if c ∈ numeric_columns then Cell.num 1
  else Cell.absent

/-- Witness for the amended C1 at a concrete one-row input. -/
theorem C1_witness :
    ∃ qs, calculate_statistics [c1wrow] = some [("q", qs)] ∧
      metricMatches qs.duration "Duration" 1000000 [c1wrow] ∧
      metricMatches qs.cpu_time "CPUTime" 1000000 [c1wrow] ∧
      metricMatches qs.read_rows "ReadRows" 1 [c1wrow] ∧
      metricMatches qs.read_bytes "ReadBytes" 1 [c1wrow] ∧
      metricMatches qs.update_rows "UpdateRows" 1 [c1wrow] ∧
      metricMatches qs.update_bytes "UpdateBytes" 1 [c1wrow] :=
  C1_minmaxsum "q" [c1wrow] (by simp)
    (fun r hr => by rw [List.mem_singleton.mp hr]; decide)
    (by decide)
    (fun r hr => by rw [List.mem_singleton.mp hr]; unfold canonicalRow; decide)

/-!  Claim C2: averages and count weights.  The claim as stated fails:
within calculate_statistics the numeric conversion coerces a NaN or
unparseable Count to 0 before the 1.0 fallback of update_from_row can
see it, so such rows contribute weight 0, not 1.  The average formula
itself holds, with total_count equal to the sum of the effective
weights.  -/

/-- The amended per-accumulator contract for C2: the internal count is
the weight total W and avg is sum over W times scale when W is
positive, else 0. -/
def accCountAvg (acc : MetricStats) (W scale : ℚ) : Prop :=
  acc.total_count = W ∧
  acc.avg = if W > 0 then acc.sum / (W * scale) else 0

theorem foldl_updateT_scale (rows : List Row) :
    ∀ s : MetricStats, (rows.foldl MetricStats.updateT s).scale = s.scale := by
  induction rows with
  | nil => intro s; rfl
  | cons r t ih =>
    intro s
    rw [List.foldl_cons, ih]
    rfl

theorem countVals_preprocess (l : List Row)
    (h : ∀ r ∈ l, r "Count" ≠ Cell.absent) :
    countVals (l.map preprocessRow) = l.map weightOf := by
  induction l with
  | nil => rfl
  | cons r t ih =>
    show countD (preprocessRow r "Count") :: countVals (t.map preprocessRow) =
      weightOf r :: t.map weightOf
    rw [preprocessRow_mem r (by decide : "Count" ∈ numeric_columns),
      convertCell_present (h r (List.mem_cons_self _ _)),
      ih (fun q hq => h q (List.mem_cons_of_mem _ hq))]
    rfl

theorem accCountAvg_fold (s0 : MetricStats) (lp : List Row) (W : ℚ)
    (hW : (countVals lp).sum = W) (h0 : s0.total_count = 0) :
    accCountAvg (lp.foldl MetricStats.updateT s0) W s0.scale := by
  have htc : (lp.foldl MetricStats.updateT s0).total_count = W := by
    rw [foldl_updateT_total_count, foldl_add_shift, h0, zero_add, hW]
  refine ⟨htc, ?_⟩
  rw [MetricStats.avg, htc, foldl_updateT_scale]

/-- C2 amended: for rows that all expose the QueryText and the numeric
columns, each query key of the aggregation result carries total_count
equal to the sum of the effective count weights of its rows (the Count
value when numeric, 0 after coercion when NaN or unparseable - not the
row count), the same weight total sits in all six accumulators, and
each avg equals sum over (weight total times scale) when the total is
positive and 0 otherwise. -/
theorem C2_avg_weights (rows : List Row)
    (hq : ∀ r ∈ rows, r "QueryText" ≠ Cell.absent)
    (hp : ∀ r ∈ rows, ∀ c ∈ numeric_columns, r c ≠ Cell.absent) :
    ∃ m, calculate_statistics rows = some m ∧
      ∀ k qs, lookupA m k = some qs →
        qs.total_count = ((rowsFor k rows).map weightOf).sum ∧
        accCountAvg qs.duration (((rowsFor k rows).map weightOf).sum) 1000000 ∧
        accCountAvg qs.cpu_time (((rowsFor k rows).map weightOf).sum) 1000000 ∧
        accCountAvg qs.read_rows (((rowsFor k rows).map weightOf).sum) 1 ∧
        accCountAvg qs.read_bytes (((rowsFor k rows).map weightOf).sum) 1 ∧
        accCountAvg qs.update_rows (((rowsFor k rows).map weightOf).sum) 1 ∧
        accCountAvg qs.update_bytes (((rowsFor k rows).map weightOf).sum) 1 := by
  have hok : ∀ r ∈ rows, r "QueryText" ≠ Cell.absent ∧ r "Count" ≠ Cell.absent :=
    fun r hr => ⟨hq r hr, hp r hr "Count" (by decide)⟩
  refine ⟨calcT rows, calc_eq_calcT rows hok, ?_⟩
  intro k qs hqs
  replace hqs : lookupA (rows.foldl calcStepT []) k = some qs := hqs
  rw [lookupA_foldl_calcStepT rows [] k] at hqs
  cases hl : rowsFor k rows with
  | nil => rw [hl] at hqs; cases hqs
  | cons r0 t =>
    rw [hl] at hqs
    replace hqs : some ((r0 :: t).foldl feedP (QueryStatistics.init k)) =
      some qs := hqs
    injection hqs with hqs
    subst hqs
    have hsub : ∀ r ∈ r0 :: t, r ∈ rows := by
      intro r hr
      have : r ∈ rowsFor k rows := by rw [hl]; exact hr
      exact (List.mem_filter.mp this).1
    have hCount : ∀ r ∈ r0 :: t, r "Count" ≠ Cell.absent :=
      fun r hr => (hok r (hsub r hr)).2
    have hmap : (r0 :: t).foldl feedP (QueryStatistics.init k) =
        ((r0 :: t).map preprocessRow).foldl QueryStatistics.update_from_rowT
          (QueryStatistics.init k) := by
      rw [List.foldl_map]
      rfl
    rw [hmap]
    have hcv : countVals ((r0 :: t).map preprocessRow) =
        (r0 :: t).map weightOf := countVals_preprocess _ hCount
    have hWsum : (countVals ((r0 :: t).map preprocessRow)).sum =
        ((r0 :: t).map weightOf).sum := by rw [hcv]
    refine ⟨?_, ?_, ?_, ?_, ?_, ?_, ?_⟩
    · rw [foldl_rowT_total_count, foldl_add_shift, hcv]
      show (0 : ℚ) + ((r0 :: t).map weightOf).sum = _
      rw [zero_add]
    · rw [foldl_rowT_duration]
      exact accCountAvg_fold _ _ _ hWsum rfl
    · rw [foldl_rowT_cpu_time]
      exact accCountAvg_fold _ _ _ hWsum rfl
    · rw [foldl_rowT_read_rows]
      exact accCountAvg_fold _ _ _ hWsum rfl
    · rw [foldl_rowT_read_bytes]
      exact accCountAvg_fold _ _ _ hWsum rfl
    · rw [foldl_rowT_update_rows]
      exact accCountAvg_fold _ _ _ hWsum rfl
    · rw [foldl_rowT_update_bytes]
      exact accCountAvg_fold _ _ _ hWsum rfl

/-- A row whose Count is an unparseable string. -/
def c2xrow : Row := fun c =>
  if c = "QueryText" then Cell.txt "q"
  else if c = "Count" then Cell.txt "abc"
  else if c ∈ numeric_columns then Cell.num 0
  else Cell.absent

/-- C2 counterexample: aggregating one row whose Count is the string
abc yields total_count 0 - the numeric conversion coerces the
unparseable Count to 0 - whereas the claim says the weight defaults to
1. -/
theorem C2_counterexample :
    (calculate_statistics [c2xrow]).map
      (fun l => l.map (fun p => (p.1, p.2.total_count))) = some [("q", 0)] ∧
    ¬((0 : ℚ) = 1) := by
  refine ⟨?_, by norm_num⟩
  norm_num +decide [calculate_statistics, calcStep, preprocessRow, queryKey,
    pyStrip, QueryStatistics.update_from_row, QueryStatistics.init,
    MetricStats.update, MetricStats.create_for_metric, MetricStats.init,
    parseCountCell, minUpd, maxUpd, sumUpd, updOptMin, lookupA, insertA,
    convertCell, numeric_columns, c2xrow]

/-- Witness for the amended C2 at a concrete one-row input. -/
theorem C2_witness :
    ∃ m, calculate_statistics [c2xrow] = some m ∧
      ∀ k qs, lookupA m k = some qs →
        qs.total_count = ((rowsFor k [c2xrow]).map weightOf).sum ∧
        accCountAvg qs.duration (((rowsFor k [c2xrow]).map weightOf).sum) 1000000 ∧
        accCountAvg qs.cpu_time (((rowsFor k [c2xrow]).map weightOf).sum) 1000000 ∧
        accCountAvg qs.read_rows (((rowsFor k [c2xrow]).map weightOf).sum) 1 ∧
        accCountAvg qs.read_bytes (((rowsFor k [c2xrow]).map weightOf).sum) 1 ∧
        accCountAvg qs.update_rows (((rowsFor k [c2xrow]).map weightOf).sum) 1 ∧
        accCountAvg qs.update_bytes (((rowsFor k [c2xrow]).map weightOf).sum) 1 :=
  C2_avg_weights [c2xrow]
    (fun r hr => by rw [List.mem_singleton.mp hr]; decide)
    (fun r hr => by rw [List.mem_singleton.mp hr]; decide)

/-!  Claim C5: the aggregation result does not depend on row order.  -/

/-- Two accumulators agree on the four data fields the claim names. -/
def accAgree (a b : MetricStats) : Prop :=
  a.min = b.min ∧ a.max = b.max ∧ a.sum = b.sum ∧
  a.total_count = b.total_count

/-- Two per-query statistics agree on every accumulator field the claim
names, and on the overall total_count. -/
def qsAgree (a b : QueryStatistics) : Prop :=
  accAgree a.duration b.duration ∧ accAgree a.cpu_time b.cpu_time ∧
  accAgree a.read_rows b.read_rows ∧ accAgree a.read_bytes b.read_bytes ∧
  accAgree a.update_rows b.update_rows ∧ accAgree a.update_bytes b.update_bytes ∧
  a.total_count = b.total_count

theorem updateT_fold_agree (s : MetricStats) {lp lp2 : List Row}
    (h : lp.Perm lp2) :
    accAgree (lp.foldl MetricStats.updateT s) (lp2.foldl MetricStats.updateT s) := by
  refine ⟨?_, ?_, ?_, ?_⟩
  · rw [foldl_updateT_min, foldl_updateT_min]
    exact foldl_updOptMin_perm (h.filterMap _) s.min
  · rw [foldl_updateT_max, foldl_updateT_max]
    exact foldl_max_perm (h.filterMap _) s.max
  · rw [foldl_updateT_sum, foldl_updateT_sum]
    exact foldl_add_perm (h.filterMap _) s.sum
  · rw [foldl_updateT_total_count, foldl_updateT_total_count]
    exact foldl_add_perm (h.map _) s.total_count

theorem rowT_fold_agree (q0 : QueryStatistics) {lp lp2 : List Row}
    (h : lp.Perm lp2) :
    qsAgree (lp.foldl QueryStatistics.update_from_rowT q0)
      (lp2.foldl QueryStatistics.update_from_rowT q0) := by
  refine ⟨?_, ?_, ?_, ?_, ?_, ?_, ?_⟩
  · rw [foldl_rowT_duration, foldl_rowT_duration]
    exact updateT_fold_agree q0.duration h
  · rw [foldl_rowT_cpu_time, foldl_rowT_cpu_time]
    exact updateT_fold_agree q0.cpu_time h
  · rw [foldl_rowT_read_rows, foldl_rowT_read_rows]
    exact updateT_fold_agree q0.read_rows h
  · rw [foldl_rowT_read_bytes, foldl_rowT_read_bytes]
    exact updateT_fold_agree q0.read_bytes h
  · rw [foldl_rowT_update_rows, foldl_rowT_update_rows]
    exact updateT_fold_agree q0.update_rows h
  · rw [foldl_rowT_update_bytes, foldl_rowT_update_bytes]
    exact updateT_fold_agree q0.update_bytes h
  · rw [foldl_rowT_total_count, foldl_rowT_total_count]
    exact foldl_add_perm (h.map _) q0.total_count

theorem feedP_fold_agree (q0 : QueryStatistics) {l l2 : List Row}
    (h : l.Perm l2) :
    qsAgree (l.foldl feedP q0) (l2.foldl feedP q0) := by
  have hm1 : l.foldl feedP q0 =
      (l.map preprocessRow).foldl QueryStatistics.update_from_rowT q0 := by
    rw [List.foldl_map]
    rfl
  have hm2 : l2.foldl feedP q0 =
      (l2.map preprocessRow).foldl QueryStatistics.update_from_rowT q0 := by
    rw [List.foldl_map]
    rfl
  rw [hm1, hm2]
  exact rowT_fold_agree q0 (h.map preprocessRow)

/-- C5: for rows that all expose QueryText and Count, aggregating any
permutation of the same rows yields the same set of keys, and for every
key the accumulators end with the same min, max, sum and total_count. -/
theorem C5_order_independent (rows rows2 : List Row)
    (hperm : rows.Perm rows2)
    (hok : ∀ r ∈ rows, r "QueryText" ≠ Cell.absent ∧ r "Count" ≠ Cell.absent) :
    ∃ m m2, calculate_statistics rows = some m ∧
      calculate_statistics rows2 = some m2 ∧
      ∀ k, (lookupA m k = none ↔ lookupA m2 k = none) ∧
        ∀ a b, lookupA m k = some a → lookupA m2 k = some b → qsAgree a b := by
  have hok2 : ∀ r ∈ rows2, r "QueryText" ≠ Cell.absent ∧ r "Count" ≠ Cell.absent :=
    fun r hr => hok r (hperm.mem_iff.mpr hr)
  refine ⟨calcT rows, calcT rows2, calc_eq_calcT rows hok,
    calc_eq_calcT rows2 hok2, ?_⟩
  intro k
  have hpf : (rowsFor k rows).Perm (rowsFor k rows2) := hperm.filter _
  have h1 := lookupA_foldl_calcStepT rows [] k
  have h2 := lookupA_foldl_calcStepT rows2 [] k
  cases hl1 : rowsFor k rows with
  | nil =>
    have hl2 : rowsFor k rows2 = [] := by
      have hlen := hpf.length_eq
      rw [hl1] at hlen
      exact List.length_eq_zero.mp hlen.symm
    rw [hl1] at h1
    rw [hl2] at h2
    replace h1 : lookupA (calcT rows) k = none := h1
    replace h2 : lookupA (calcT rows2) k = none := h2
    refine ⟨by rw [h1, h2], ?_⟩
    intro a b ha hb
    rw [h1] at ha
    cases ha
  | cons r0 t =>
    have hl2ne : rowsFor k rows2 ≠ [] := by
      intro hnil
      have hlen := hpf.length_eq
      rw [hl1, hnil] at hlen
      cases hlen
    cases hl2 : rowsFor k rows2 with
    | nil => exact absurd hl2 hl2ne
    | cons s0 u =>
      rw [hl1] at h1
      rw [hl2] at h2
      replace h1 : lookupA (calcT rows) k =
        some ((r0 :: t).foldl feedP (QueryStatistics.init k)) := h1
      replace h2 : lookupA (calcT rows2) k =
        some ((s0 :: u).foldl feedP (QueryStatistics.init k)) := h2
      refine ⟨by rw [h1, h2]; simp, ?_⟩
      intro a b ha hb
      rw [h1] at ha
      rw [h2] at hb
      injection ha with ha
      injection hb with hb
      subst ha
      subst hb
      have hpl : (r0 :: t).Perm (s0 :: u) := by
        rw [← hl1, ← hl2]
        exact hpf
      exact feedP_fold_agree (QueryStatistics.init k) hpl

/-- A row keyed q1. -/
def c5rowA : Row := fun c =>
  if c = "QueryText" then Cell.txt "q1"
  else if c = "Count" then Cell.num 1 else Cell.absent

/-- A row keyed q2. -/
def c5rowB : Row := fun c =>
  if c = "QueryText" then Cell.txt "q2"
  else if c = "Count" then Cell.num 1 else Cell.absent

/-- Witness for C5 at a concrete two-row input and its swap. -/
theorem C5_witness :
    ∃ m m2, calculate_statistics [c5rowA, c5rowB] = some m ∧
      calculate_statistics [c5rowB, c5rowA] = some m2 ∧
      ∀ k, (lookupA m k = none ↔ lookupA m2 k = none) ∧
        ∀ a b, lookupA m k = some a → lookupA m2 k = some b → qsAgree a b :=
  C5_order_independent [c5rowA, c5rowB] [c5rowB, c5rowA]
    (List.Perm.swap c5rowB c5rowA [])
    (fun r hr => by
      rcases List.mem_cons.mp hr with rfl | hr2
      · exact ⟨by decide, by decide⟩
      · rcases List.mem_cons.mp hr2 with rfl | hr3
        · exact ⟨by decide, by decide⟩
        · cases hr3)

end Ydb
